import Mathlib

/-!
Verification development for the `escalada-core` repository.

Shallow embedding of `src/escalada_core/contest.py`, `validation.py` and
`lead_ranking.py`.  Python floats are modelled as rationals (`ℚ`, with
non-finite values represented explicitly where the source tests for them),
Python dicts as insertion-ordered association lists, and the `uuid.uuid4()`
calls as an explicit `fresh : String` oracle argument.  Transitions that can
`raise` return `Except String`.
-/

set_option maxHeartbeats 1000000
set_option maxRecDepth 10000

namespace Escalada

/-- ASCII whitespace in the sense of Python `str.strip` (kernel-reducible). -/
def isPyWhitespace (c : Char) : Bool := [32, 9, 10, 13, 11, 12].contains c.toNat

/-- Python `s.strip()` (list-based so that proofs can evaluate it). -/
def pyStrip (s : String) : String :=
  ⟨((s.data.dropWhile isPyWhitespace).reverse.dropWhile isPyWhitespace).reverse⟩

/-- `str.lower()` (list-based). -/
def strLower (s : String) : String := ⟨s.data.map Char.toLower⟩

/-- `str.upper()` (list-based). -/
def strUpper (s : String) : String := ⟨s.data.map Char.toUpper⟩

/-- `str.split(c)` on a single-character separator (list-based). -/
def strSplitOnChar (s : String) (c : Char) : List String :=
  (s.data.splitOn c).map (fun l => ⟨l⟩)

/-- Python `int(x)` applied to a float/rational: truncation toward zero. -/
def pyTrunc (q : ℚ) : ℤ := if q < 0 then -((-q).floor) else q.floor

/-- Round-half-to-even on a rational (Python `round` banker's rounding). -/
def roundHalfEven (q : ℚ) : ℤ :=
  let f := q.floor
  let r := q - (f : ℚ)
  if r < 1/2 then f
  else if 1/2 < r then f + 1
  else if f % 2 = 0 then f else f + 1

/-- Python `round(x, 1)` on the ideal decimal reading of the float. -/
def pyRound1 (q : ℚ) : ℚ := ((roundHalfEven (q * 10) : ℤ) : ℚ) / 10

/-- Python truthiness of a string (`""` is falsy). -/
def strTruthy (s : String) : Bool := s ≠ ""

/-- Python truthiness of an optional string (absent or `None` or `""` is falsy). -/
def optStrTruthy : Option String → Bool
  | none => false
  | some s => strTruthy s

/-- Python `cmd.get(k) or d` for integer fields (`0` is falsy). -/
def pyOrInt (v : Option ℤ) (d : ℤ) : ℤ :=
  match v with
  | none => d
  | some n => if n = 0 then d else n

/-- Lookup in an insertion-ordered dict. -/
def dictGet {α : Type} (l : List (String × α)) (k : String) : Option α :=
  (l.find? (fun p => p.1 == k)).map (·.2)

/-- Python `d[k] = v`: update in place if the key exists, else append. -/
def dictSet {α : Type} (l : List (String × α)) (k : String) (v : α) :
    List (String × α) :=
  if (l.find? (fun p => p.1 == k)).isSome then
    l.map (fun p => if p.1 == k then (k, v) else p)
  else l ++ [(k, v)]

/-- Python `d.pop(k, None)`. -/
def dictPop {α : Type} (l : List (String × α)) (k : String) : List (String × α) :=
  l.filter (fun p => p.1 != k)

/-- Digits of a decimal string to a natural number; `none` if empty or non-digit. -/
def digitsToNat (cs : List Char) : Option ℕ :=
  if cs = [] then none
  else cs.foldl
    (fun acc c =>
      match acc with
      | none => none
      | some n => if c.isDigit then some (n * 10 + (c.toNat - 48)) else none)
    (some 0)

/-- Python `int(s)` on a string: strip, optional sign, base-10 digits. -/
def pyParseIntStr (s : String) : Option ℤ :=
  match (pyStrip s).toList with
  | '+' :: rest => (digitsToNat rest).map (fun n => (n : ℤ))
  | '-' :: rest => (digitsToNat rest).map (fun n => -(n : ℤ))
  | rest => (digitsToNat rest).map (fun n => (n : ℤ))

/-- Decimal mantissa `digits[.digits]` (also `.digits` / `digits.`) to a rational. -/
def parseMantissa (cs : List Char) : Option ℚ :=
  match cs.splitOn '.' with
  | [intPart] => (digitsToNat intPart).map (fun n => (n : ℚ))
  | [intPart, fracPart] =>
      if intPart = [] ∧ fracPart = [] then none
      else
        let ip : Option ℕ := if intPart = [] then some 0 else digitsToNat intPart
        let fp : Option ℕ := if fracPart = [] then some 0 else digitsToNat fracPart
        match ip, fp with
        | some i, some f => some ((i : ℚ) + (f : ℚ) / ((10 : ℚ) ^ fracPart.length))
        | _, _ => none
  | _ => none

/-- Signed exponent part of a float literal. -/
def parseExponent (cs : List Char) : Option ℤ :=
  match cs with
  | '+' :: rest => (digitsToNat rest).map (fun n => (n : ℤ))
  | '-' :: rest => (digitsToNat rest).map (fun n => -(n : ℤ))
  | rest => (digitsToNat rest).map (fun n => (n : ℤ))

/-- Python `float(s)` restricted to finite results: parses an optionally signed
decimal with optional exponent.  `"inf"`, `"nan"` and malformed strings give
`none` (the caller `_coerce_optional_time` maps both a parse failure and a
non-finite value to `None`, so the two cases need not be distinguished). -/
def pyParseFiniteFloatStr (s : String) : Option ℚ :=
  let t := (pyStrip s).toList
  let (sign, body) :=
    match t with
    | '+' :: rest => ((1 : ℚ), rest)
    | '-' :: rest => ((-1 : ℚ), rest)
    | rest => ((1 : ℚ), rest)
  let (mant, expo) :=
    match body.splitOn 'e' with
    | [m, e] => (m, some e)
    | _ =>
      match body.splitOn 'E' with
      | [m, e] => (m, some e)
      | _ => (body, none)
  match parseMantissa mant, expo with
  | some q, none => some (sign * q)
  | some q, some e =>
      match parseExponent e with
      | some z => some (sign * q * (10 : ℚ) ^ z)
      | none => none
  | none, _ => none

/-- A Python value appearing in the `registeredTime` slot of a command. -/
inductive TimeVal where
  | vNone
  | vBool (b : Bool)
  | vInt (n : ℤ)
  | vFloat (q : ℚ)
  | vNonFinite
  | vStr (s : String)
deriving DecidableEq, Repr

/-- `contest._coerce_optional_time`. -/
def coerce_optional_time : TimeVal → Option ℚ
  | .vNone => none
  | .vBool _ => none
  | .vInt n => some (n : ℚ)
  | .vFloat q => some q
  | .vNonFinite => none
  | .vStr s =>
      let stripped := pyStrip s
      if stripped = "" then none
      else pyParseFiniteFloatStr stripped

/-- A Python value appearing in the `idx` / `competitorIdx` slot of a command. -/
inductive IdxVal where
  | vNone
  | vBool (b : Bool)
  | vInt (n : ℤ)
  | vStr (s : String)
  | vOther
deriving DecidableEq, Repr

/-- `contest._coerce_idx`. -/
def coerce_idx : IdxVal → Option ℤ
  | .vNone => none
  | .vBool _ => none
  | .vInt n => some n
  | .vStr s =>
      let stripped := pyStrip s
      if stripped = "" then none else pyParseIntStr stripped
  | .vOther => none

/-- A normalized competitor entry held in the contest state. -/
structure Competitor where
  nume : String
  marked : Bool
  club : Option String := none
deriving DecidableEq, Repr

/-- `InputSanitizer.sanitize_string`: strip, truncate, drop null bytes. -/
def sanitize_string (value : String) (maxLength : ℕ) : String :=
  let v := pyStrip value
  let v : String := ⟨v.toList.take maxLength⟩
  ⟨v.toList.filter (fun c => c.toNat ≠ 0)⟩

/-- Characters removed by `InputSanitizer.sanitize_competitor_name`
(the regex class given there, written via code points). -/
def isDangerousChar (c : Char) : Bool :=
  c.toNat ≤ 31 || c.toNat = 127 ||
    [60, 62, 123, 125, 91, 93, 92, 124, 59, 40, 41, 38, 36, 96, 34, 42].contains c.toNat

/-- `InputSanitizer.sanitize_competitor_name`. -/
def sanitize_competitor_name (name : String) : String :=
  let name := sanitize_string name 255
  let name : String := ⟨name.toList.filter (fun c => ¬ isDangerousChar c)⟩
  pyStrip name

/-- `InputSanitizer.sanitize_category`. -/
def sanitize_category (category : String) : String :=
  sanitize_string category 100

/-- A raw Python value that is either a string or something else
(whose `str(...)` form is carried along where the source calls `str`). -/
inductive PyStrVal where
  | s (v : String)
  | other (asString : String)
deriving DecidableEq, Repr

/-- A raw Python value in the `marked` slot of an incoming competitor entry. -/
inductive MarkedVal where
  | mBool (b : Bool)
  | mInt (n : ℤ)
  | mFloat (q : ℚ)
  | mStr (s : String)
  | mOther
deriving DecidableEq, Repr

/-- A raw incoming competitor record (fields may be absent or ill-typed). -/
structure RawCompetitor where
  nume : Option PyStrVal := none
  club : Option PyStrVal := none
  marked : Option MarkedVal := none
deriving DecidableEq, Repr

/-- An entry of an incoming `competitors` list (may not be a dict at all). -/
inductive RawEntry where
  | dict (c : RawCompetitor)
  | nonDict
deriving DecidableEq, Repr

/-- The `marked` coercion inside `contest._normalize_competitors`. -/
def coerceMarked : Option MarkedVal → Bool
  | none => false
  | some (.mBool b) => b
  | some (.mInt n) => n ≠ 0
  | some (.mFloat q) => pyTrunc q ≠ 0
  | some (.mStr s) =>
      let lowered := strLower (pyStrip s)
      if ["1", "true", "yes", "y", "on"].contains lowered then true
      else false
  | some .mOther => false

/-- The `club` normalization inside `contest._normalize_competitors`. -/
def normalizeClub : Option PyStrVal → Option String
  | none => none
  | some (.s v) =>
      if v = "" then none
      else
        let cand := sanitize_string v 255
        if cand = "" then none else some cand
  | some (.other t) =>
      let cand := sanitize_string t 255
      if cand = "" then none else some cand

/-- `contest._normalize_competitors`. -/
def normalize_competitors (competitors : Option (List RawEntry)) : List Competitor :=
  match competitors with
  | none => []
  | some entries =>
      entries.foldr (fun e acc =>
        match e with
        | .nonDict => acc
        | .dict comp =>
            match comp.nume with
            | some (.s name) =>
                let safeName := sanitize_competitor_name name
                if safeName = "" then acc
                else
                  { nume := safeName
                    marked := coerceMarked comp.marked
                    club := normalizeClub comp.club } :: acc
            | _ => acc) []

/-- The inner scan of `contest._compute_preparing_climber`:
first entry after the current index with a non-blank name and `marked` false. -/
def nextUnmarked : List Competitor → String
  | [] => ""
  | c :: rest =>
      if pyStrip c.nume = "" then nextUnmarked rest
      else if c.marked then nextUnmarked rest
      else c.nume

/-- `contest._compute_preparing_climber`. -/
def compute_preparing_climber (competitors : List Competitor)
    (currentClimber : String) : String :=
  if competitors = [] ∨ currentClimber = "" then ""
  else
    match competitors.findIdx? (fun c => c.nume == currentClimber) with
    | none => ""
    | some i => nextUnmarked (competitors.drop (i + 1))

/-- The contest box state (`types.ContestState`, as produced by
`contest.default_state` and the transition function).  The `scores` and
`times` dicts may be absent in the Python state until first written; every
read normalizes absence to the empty mapping (`.get(...) or {}` /
the `isinstance` repair in `INIT_ROUTE`), so they are modelled as
always-present mappings defaulting to empty. -/
structure ContestState where
  initiated : Bool
  holdsCount : ℤ
  currentClimber : String
  preparingClimber : String
  started : Bool
  timerState : String
  holdCount : ℚ
  routeIndex : ℤ
  routesCount : ℤ
  holdsCounts : List ℤ
  competitors : List Competitor
  categorie : String
  lastRegisteredTime : Option ℚ
  remaining : Option ℚ
  timerPreset : Option String
  timerPresetSec : Option ℤ
  timerRemainingSec : Option ℚ
  timerEndsAtMs : Option ℤ
  timeCriterionEnabled : Bool
  timeTiebreakPreference : Option String
  timeTiebreakResolvedFingerprint : Option String
  timeTiebreakResolvedDecision : Option String
  timeTiebreakDecisions : List (String × String)
  prevRoundsTiebreakPreference : Option String
  prevRoundsTiebreakResolvedFingerprint : Option String
  prevRoundsTiebreakResolvedDecision : Option String
  prevRoundsTiebreakDecisions : List (String × String)
  prevRoundsTiebreakOrders : List (String × List String)
  prevRoundsTiebreakRanks : List (String × List (String × ℤ))
  sessionId : String
  boxVersion : ℤ
  scores : List (String × List (Option ℚ))
  times : List (String × List (Option ℚ))
deriving DecidableEq, Repr

/-- `contest.default_state` (the generated uuid passed explicitly). -/
def default_state (session_id : String) : ContestState where
  initiated := false
  holdsCount := 0
  currentClimber := ""
  preparingClimber := ""
  started := false
  timerState := "idle"
  holdCount := 0
  routeIndex := 1
  routesCount := 1
  holdsCounts := []
  competitors := []
  categorie := ""
  lastRegisteredTime := none
  remaining := none
  timerPreset := none
  timerPresetSec := none
  timerRemainingSec := none
  timerEndsAtMs := none
  timeCriterionEnabled := false
  timeTiebreakPreference := none
  timeTiebreakResolvedFingerprint := none
  timeTiebreakResolvedDecision := none
  timeTiebreakDecisions := []
  prevRoundsTiebreakPreference := none
  prevRoundsTiebreakResolvedFingerprint := none
  prevRoundsTiebreakResolvedDecision := none
  prevRoundsTiebreakDecisions := []
  prevRoundsTiebreakOrders := []
  prevRoundsTiebreakRanks := []
  sessionId := session_id
  boxVersion := 0
  scores := []
  times := []

/-- `contest.parse_timer_preset`. -/
def parse_timer_preset : Option String → Option ℤ
  | none => none
  | some preset =>
      if preset = "" then none
      else
        match strSplitOnChar preset ':' with
        | [m, s] =>
            match (if m = "" then some 0 else pyParseIntStr m),
                  (if s = "" then some 0 else pyParseIntStr s) with
            | some mi, some si => some (mi * 60 + si)
            | _, _ => none
        | _ => none

/-- A Python value in the `prevRoundsTiebreakRanksByName` value slot. -/
inductive RankVal where
  | rInt (n : ℤ)
  | rBool (b : Bool)
  | rOther
deriving DecidableEq, Repr

/-- An incoming command record (`types.CommandPayload`).  `Option` marks an
absent (or `None`) field; slots whose ill-typed contents the source inspects
carry their own raw-value type. -/
structure Cmd where
  type : String
  boxId : Option ℤ := none
  delta : Option ℚ := none
  score : Option ℚ := none
  competitor : Option String := none
  registeredTime : Option TimeVal := none
  time : Option ℚ := none
  routeIndex : Option ℤ := none
  holdsCount : Option ℤ := none
  routesCount : Option ℤ := none
  holdsCounts : Option (List ℤ) := none
  competitors : Option (List RawEntry) := none
  categorie : Option String := none
  timerPreset : Option String := none
  remaining : Option ℚ := none
  timeCriterionEnabled : Option Bool := none
  idx : Option IdxVal := none
  competitorIdx : Option IdxVal := none
  timeTiebreakDecision : Option String := none
  timeTiebreakFingerprint : Option String := none
  prevRoundsTiebreakDecision : Option String := none
  prevRoundsTiebreakFingerprint : Option String := none
  prevRoundsTiebreakOrder : Option (List PyStrVal) := none
  prevRoundsTiebreakRanksByName : Option (List (PyStrVal × RankVal)) := none
  resetTimer : Option Bool := none
  clearProgress : Option Bool := none
  unmarkAll : Option Bool := none
  sessionId : Option String := none
  boxVersion : Option ℤ := none
deriving DecidableEq, Repr

/-- Result of applying a core command (`contest.CommandOutcome`). -/
structure CommandOutcome where
  state : ContestState
  cmd_payload : Cmd
  snapshot_required : Bool
deriving DecidableEq, Repr

/-- `contest.ValidationError`. -/
structure ValidationError where
  kind : String
  message : Option String := none
  status_code : Option ℤ := none
deriving DecidableEq, Repr

/-- The marking loop of `SUBMIT_SCORE`: set `marked=True` on the first
competitor whose `nume` equals the target, then `break`. -/
def markFirstAux : List Competitor → String → List Competitor
  | [], _ => []
  | c :: rest, n =>
      if c.nume = n then { c with marked := true } :: rest
      else c :: markFirstAux rest n

/-- Marking with a possibly-absent target (`comp.get("nume") == None` never
holds for the typed competitor entries, so an absent name marks nobody). -/
def markFirst (l : List Competitor) (target : Option String) : List Competitor :=
  match target with
  | none => l
  | some n => markFirstAux l n

/-- The `while len(arr) <= route_idx: arr.append(None)` padding followed by
`arr[route_idx] = v`. -/
def padAssign (arr : List (Option ℚ)) (i : ℕ) (v : Option ℚ) : List (Option ℚ) :=
  (arr ++ List.replicate (i + 1 - arr.length) none).set i v

/-- The `idx` / `competitorIdx` resolution prologue of `SUBMIT_SCORE`
(`"idx" in cmd` shadows `competitorIdx` even when its value is `None`). -/
def resolveSubmitIdx (cmd : Cmd) : Except String (Option ℤ) :=
  match cmd.idx with
  | some raw =>
      if raw = .vNone ∨ raw = .vStr "" then .ok none
      else
        match coerce_idx raw with
        | some i => .ok (some i)
        | none => .error "SUBMIT_SCORE idx must be an int or numeric string"
  | none =>
      match cmd.competitorIdx with
      | some raw =>
          if raw = .vNone ∨ raw = .vStr "" then .ok none
          else
            match coerce_idx raw with
            | some i => .ok (some i)
            | none => .error "SUBMIT_SCORE competitorIdx must be an int or numeric string"
      | none => .ok none

/-- Full target-competitor resolution of `SUBMIT_SCORE`: pair of the resolved
name and whether it was resolved through an index (in which case the echo
payload's `competitor` field is overwritten). -/
def resolveSubmitName (cmd : Cmd) (competitors : List Competitor) :
    Except String (Option String × Bool) :=
  match resolveSubmitIdx cmd with
  | .error e => .error e
  | .ok none => .ok (cmd.competitor, false)
  | .ok (some i) =>
      if i < 0 ∨ (competitors.length : ℤ) ≤ i then
        .error "SUBMIT_SCORE idx out of range"
      else
        let comp := competitors.getD i.toNat { nume := "", marked := false }
        if pyStrip comp.nume = "" then
          .error "SUBMIT_SCORE idx refers to invalid competitor"
        else .ok (some comp.nume, true)

/-- Order normalization of `SET_PREV_ROUNDS_TIEBREAK_DECISION`: keep strings,
trim, drop blanks, de-duplicate preserving arrival order. -/
def normalizePrevOrder (raw : List PyStrVal) : List String :=
  raw.foldl
    (fun acc item =>
      match item with
      | .other _ => acc
      | .s itemStr =>
          let name := pyStrip itemStr
          if name = "" then acc
          else if acc.contains name then acc
          else acc ++ [name]) []

/-- Ranks-map normalization of `SET_PREV_ROUNDS_TIEBREAK_DECISION`: skip
non-string keys and blank names; a non-int / bool / non-positive rank raises. -/
def normalizePrevRanks (raw : List (PyStrVal × RankVal)) :
    Except String (List (String × ℤ)) :=
  raw.foldlM
    (fun acc p =>
      match p.1 with
      | .other _ => .ok acc
      | .s rawName =>
          let name := pyStrip rawName
          if name = "" then .ok acc
          else
            match p.2 with
            | .rInt n =>
                if n ≤ 0 then
                  .error "SET_PREV_ROUNDS_TIEBREAK_DECISION ranks must be positive integers"
                else .ok (dictSet acc name n)
            | _ =>
                .error "SET_PREV_ROUNDS_TIEBREAK_DECISION ranks must be positive integers")
    []

/-- The `PROGRESS_UPDATE` hold-count computation of `contest._apply_transition`:
`delta` defaulted by the falsy-`or` to 1, integer path for `delta == 1`,
rounded float path otherwise, then the clamps. -/
def progress_new_count (s : ContestState) (cmdDelta : Option ℚ) : ℚ :=
  let delta : ℚ := match cmdDelta with
    | none => 1
    | some d => if d = 0 then 1 else d
  let newCount : ℚ :=
    if delta = 1 then ((pyTrunc s.holdCount + 1 : ℤ) : ℚ)
    else pyRound1 (s.holdCount + delta)
  let newCount := if newCount < 0 then 0 else newCount
  let maxHolds := s.holdsCount
  if 0 < maxHolds ∧ (maxHolds : ℚ) < newCount then (maxHolds : ℚ) else newCount

/-- `contest._apply_transition`.  `fresh` stands for the `str(uuid.uuid4())`
generated in the `RESET_PARTIAL(unmarkAll)` and `RESET_BOX` branches. -/
def apply_transition (state : ContestState) (cmd : Cmd) (fresh : String) :
    Except String CommandOutcome :=
  let s := state
  if cmd.type = "INIT_ROUTE" then
    let s := { s with boxVersion := s.boxVersion + 1 }
    let payload := { cmd with sessionId := some s.sessionId }
    let incomingRouteIndex := pyOrInt cmd.routeIndex 1
    let s := { s with
      initiated := true
      holdsCount := cmd.holdsCount.getD 0
      routeIndex := incomingRouteIndex
      routesCount := match cmd.routesCount with | some rc => rc | none => s.routesCount
      holdsCounts := match cmd.holdsCounts with | some hc => hc | none => s.holdsCounts }
    let competitors := normalize_competitors cmd.competitors
    let s := { s with
      competitors := competitors
      currentClimber := match competitors with | c :: _ => c.nume | [] => ""
      preparingClimber := match competitors with | _ :: c2 :: _ => c2.nume | _ => "" }
    let s := { s with started := false, timerState := "idle", holdCount := 0,
                      lastRegisteredTime := none, remaining := none }
    let s :=
      if incomingRouteIndex = 1 then
        { s with scores := [], times := [],
                 timeTiebreakDecisions := [],
                 timeTiebreakResolvedFingerprint := none,
                 timeTiebreakResolvedDecision := none,
                 prevRoundsTiebreakDecisions := [],
                 prevRoundsTiebreakOrders := [],
                 prevRoundsTiebreakRanks := [],
                 prevRoundsTiebreakResolvedFingerprint := none,
                 prevRoundsTiebreakResolvedDecision := none }
      else s
    let s := { s with
      categorie := match cmd.categorie with
        | some c => if c ≠ "" then c else s.categorie
        | none => s.categorie }
    let s := { s with
      timerPreset := match cmd.timerPreset with
        | some p => if p ≠ "" then some p else s.timerPreset
        | none => s.timerPreset
      timerPresetSec := match cmd.timerPreset with
        | some p => if p ≠ "" then parse_timer_preset (some p) else s.timerPresetSec
        | none => s.timerPresetSec }
    .ok { state := s, cmd_payload := payload, snapshot_required := true }
  else if cmd.type = "START_TIMER" then
    .ok { state := { s with started := true, timerState := "running",
                            lastRegisteredTime := none, remaining := none },
          cmd_payload := cmd, snapshot_required := true }
  else if cmd.type = "STOP_TIMER" then
    .ok { state := { s with started := false, timerState := "paused" },
          cmd_payload := cmd, snapshot_required := true }
  else if cmd.type = "RESUME_TIMER" then
    .ok { state := { s with started := true, timerState := "running",
                            lastRegisteredTime := none },
          cmd_payload := cmd, snapshot_required := true }
  else if cmd.type = "PROGRESS_UPDATE" then
    .ok { state := { s with holdCount := progress_new_count s cmd.delta },
          cmd_payload := cmd, snapshot_required := true }
  else if cmd.type = "REGISTER_TIME" then
    let s := { s with
      lastRegisteredTime := match cmd.registeredTime with
        | some v =>
            match coerce_optional_time v with
            | some q => some q
            | none => s.lastRegisteredTime
        | none => s.lastRegisteredTime }
    .ok { state := s, cmd_payload := cmd, snapshot_required := true }
  else if cmd.type = "TIMER_SYNC" then
    .ok { state := { s with remaining := cmd.remaining },
          cmd_payload := cmd, snapshot_required := false }
  else if cmd.type = "SET_TIMER_PRESET" then
    let s := { s with
      timerPreset := match cmd.timerPreset with
        | some preset => some preset
        | none => s.timerPreset
      timerPresetSec := match cmd.timerPreset with
        | some preset => parse_timer_preset (some preset)
        | none => s.timerPresetSec }
    let s := { s with
      remaining := match cmd.timerPreset with
        | some _ =>
            let timerState := if s.timerState = "" then "idle" else s.timerState
            if timerState ≠ "running" ∧ timerState ≠ "paused" then
              s.timerPresetSec.map (fun n => (n : ℚ))
            else s.remaining
        | none => s.remaining }
    .ok { state := s, cmd_payload := cmd, snapshot_required := true }
  else if cmd.type = "SUBMIT_SCORE" then
    let rawTime : TimeVal :=
      match cmd.registeredTime with
      | none => (match s.lastRegisteredTime with | some q => .vFloat q | none => .vNone)
      | some .vNone => (match s.lastRegisteredTime with | some q => .vFloat q | none => .vNone)
      | some v => v
    let effectiveTime := coerce_optional_time rawTime
    let echoTime : TimeVal :=
      match effectiveTime with | some q => TimeVal.vFloat q | none => TimeVal.vNone
    let payload0 := { cmd with registeredTime := some echoTime }
    match resolveSubmitName cmd s.competitors with
    | .error e => .error e
    | .ok (competitorName, fromIdx) =>
        let payload :=
          if fromIdx then { payload0 with competitor := competitorName } else payload0
        let activeName := s.currentClimber
        let routeIdx : ℕ := (max (pyOrInt s.routeIndex 1 - 1) 0).toNat
        let nameTruthy : Bool :=
          match competitorName with
          | some nm => nm != ""
          | none => false
        let s := { s with
          scores :=
            if nameTruthy then
              match competitorName, cmd.score with
              | some nm, some sc =>
                  dictSet s.scores nm
                    (padAssign ((dictGet s.scores nm).getD []) routeIdx (some sc))
              | _, _ => s.scores
            else s.scores
          times :=
            if nameTruthy then
              match competitorName, effectiveTime with
              | some nm, some t =>
                  dictSet s.times nm
                    (padAssign ((dictGet s.times nm).getD []) routeIdx (some t))
              | _, _ => s.times
            else s.times }
        let s := { s with started := false, timerState := "idle", holdCount := 0,
                          lastRegisteredTime := effectiveTime, remaining := none }
        let comps :=
          if s.competitors = [] then s.competitors
          else markFirst s.competitors competitorName
        let advance : Bool :=
          match competitorName with
          | some nm => nm != "" && nm == activeName
          | none => false
        let current' :=
          if s.competitors = [] then s.currentClimber
          else if advance then compute_preparing_climber comps activeName
          else s.currentClimber
        let preparing' :=
          if s.competitors = [] then s.preparingClimber
          else compute_preparing_climber comps current'
        let s := { s with competitors := comps, currentClimber := current',
                          preparingClimber := preparing' }
        .ok { state := s, cmd_payload := payload, snapshot_required := true }
  else if cmd.type = "SET_TIME_CRITERION" then
    let s := { s with
      timeCriterionEnabled := match cmd.timeCriterionEnabled with
        | some b => b
        | none => s.timeCriterionEnabled }
    .ok { state := s, cmd_payload := cmd, snapshot_required := true }
  else if cmd.type = "SET_TIME_TIEBREAK_DECISION" then
    match cmd.timeTiebreakDecision with
    | none => .error "SET_TIME_TIEBREAK_DECISION requires timeTiebreakDecision yes or no"
    | some decision =>
        if decision ≠ "yes" ∧ decision ≠ "no" then
          .error "SET_TIME_TIEBREAK_DECISION requires timeTiebreakDecision yes or no"
        else
          match cmd.timeTiebreakFingerprint with
          | none => .error "SET_TIME_TIEBREAK_DECISION requires non-empty timeTiebreakFingerprint"
          | some fp =>
              if pyStrip fp = "" then
                .error "SET_TIME_TIEBREAK_DECISION requires non-empty timeTiebreakFingerprint"
              else
                let normalizedFingerprint := pyStrip fp
                let s := { s with
                  timeTiebreakDecisions :=
                    dictSet s.timeTiebreakDecisions normalizedFingerprint decision
                  timeTiebreakPreference := some decision
                  timeTiebreakResolvedFingerprint := some normalizedFingerprint
                  timeTiebreakResolvedDecision := some decision }
                let payload := { cmd with
                  timeTiebreakDecision := some decision
                  timeTiebreakFingerprint := some normalizedFingerprint }
                .ok { state := s, cmd_payload := payload, snapshot_required := true }
  else if cmd.type = "SET_PREV_ROUNDS_TIEBREAK_DECISION" then
    match cmd.prevRoundsTiebreakDecision with
    | none =>
        .error "SET_PREV_ROUNDS_TIEBREAK_DECISION requires prevRoundsTiebreakDecision yes or no"
    | some decision =>
        if decision ≠ "yes" ∧ decision ≠ "no" then
          .error "SET_PREV_ROUNDS_TIEBREAK_DECISION requires prevRoundsTiebreakDecision yes or no"
        else
          match cmd.prevRoundsTiebreakFingerprint with
          | none =>
              .error "SET_PREV_ROUNDS_TIEBREAK_DECISION requires non-empty prevRoundsTiebreakFingerprint"
          | some fp =>
              if pyStrip fp = "" then
                .error "SET_PREV_ROUNDS_TIEBREAK_DECISION requires non-empty prevRoundsTiebreakFingerprint"
              else
                let normalizedFingerprint := pyStrip fp
                let normalizedOrder :=
                  match cmd.prevRoundsTiebreakOrder with
                  | none => []
                  | some raw => normalizePrevOrder raw
                match (match cmd.prevRoundsTiebreakRanksByName with
                       | none => Except.ok []
                       | some raw => normalizePrevRanks raw) with
                | .error e => .error e
                | .ok normalizedRanksMap =>
                    let decisions :=
                      dictSet s.prevRoundsTiebreakDecisions normalizedFingerprint decision
                    let s := { s with prevRoundsTiebreakDecisions := decisions }
                    let orders :=
                      if decision = "yes" ∧ normalizedOrder ≠ [] then
                        dictSet s.prevRoundsTiebreakOrders normalizedFingerprint normalizedOrder
                      else dictPop s.prevRoundsTiebreakOrders normalizedFingerprint
                    let ranks :=
                      if decision = "yes" ∧ normalizedRanksMap ≠ [] then
                        dictSet s.prevRoundsTiebreakRanks normalizedFingerprint normalizedRanksMap
                      else dictPop s.prevRoundsTiebreakRanks normalizedFingerprint
                    let s := { s with
                      prevRoundsTiebreakOrders := orders
                      prevRoundsTiebreakRanks := ranks
                      prevRoundsTiebreakPreference := some decision
                      prevRoundsTiebreakResolvedFingerprint := some normalizedFingerprint
                      prevRoundsTiebreakResolvedDecision := some decision }
                    let payload := { cmd with
                      prevRoundsTiebreakDecision := some decision
                      prevRoundsTiebreakFingerprint := some normalizedFingerprint
                      prevRoundsTiebreakOrder := some (normalizedOrder.map PyStrVal.s)
                      prevRoundsTiebreakRanksByName :=
                        some (normalizedRanksMap.map (fun p => (PyStrVal.s p.1, RankVal.rInt p.2))) }
                    .ok { state := s, cmd_payload := payload, snapshot_required := true }
  else if cmd.type = "RESET_PARTIAL" then
    let unmarkAll := cmd.unmarkAll.getD false
    let resetTimer := if unmarkAll then true else cmd.resetTimer.getD false
    let clearProgress := if unmarkAll then true else cmd.clearProgress.getD false
    let s :=
      if unmarkAll then
        let s := { s with initiated := false, sessionId := fresh, routeIndex := 1 }
        let s := match s.holdsCounts with
          | h :: _ => { s with holdsCount := h }
          | [] => s
        let s := { s with scores := [], times := [], lastRegisteredTime := none,
                          timeTiebreakDecisions := [],
                          timeTiebreakResolvedFingerprint := none,
                          timeTiebreakResolvedDecision := none,
                          prevRoundsTiebreakDecisions := [],
                          prevRoundsTiebreakOrders := [],
                          prevRoundsTiebreakRanks := [],
                          prevRoundsTiebreakResolvedFingerprint := none,
                          prevRoundsTiebreakResolvedDecision := none }
        { s with competitors := s.competitors.map (fun c => { c with marked := false }),
                 currentClimber := "", preparingClimber := "" }
      else s
    let s :=
      if resetTimer then
        let presetSec := match s.timerPresetSec with
          | some n => some n
          | none => parse_timer_preset s.timerPreset
        { s with started := false, timerState := "idle",
                 remaining := presetSec.map (fun n => (n : ℚ)),
                 lastRegisteredTime := none }
      else s
    let s := if clearProgress then { s with holdCount := 0 } else s
    .ok { state := s, cmd_payload := cmd, snapshot_required := true }
  else if cmd.type = "RESET_BOX" then
    let s := { s with
      initiated := false
      currentClimber := ""
      preparingClimber := ""
      started := false
      timerState := "idle"
      holdCount := 0
      lastRegisteredTime := none
      remaining := none
      scores := []
      times := []
      routesCount := 1
      holdsCounts := []
      competitors := []
      categorie := ""
      timerPreset := none
      timerPresetSec := none
      timeTiebreakPreference := none
      timeTiebreakResolvedFingerprint := none
      timeTiebreakResolvedDecision := none
      timeTiebreakDecisions := []
      prevRoundsTiebreakPreference := none
      prevRoundsTiebreakResolvedFingerprint := none
      prevRoundsTiebreakResolvedDecision := none
      prevRoundsTiebreakDecisions := []
      prevRoundsTiebreakOrders := []
      prevRoundsTiebreakRanks := []
      sessionId := fresh }
    .ok { state := s, cmd_payload := cmd, snapshot_required := true }
  else
    .ok { state := s, cmd_payload := cmd, snapshot_required := false }

/-- `contest.apply_command` (the in-place mutation of the caller's dict is a
compatibility shim; the returned outcome is the value of interest). -/
def apply_command (state : ContestState) (cmd : Cmd) (fresh : String) :
    Except String CommandOutcome :=
  apply_transition state cmd fresh

/-- `contest.validate_session_and_version`. -/
def validate_session_and_version (state : ContestState) (cmd : Cmd)
    (require_session : Bool) : Option ValidationError :=
  let currentSession := state.sessionId
  let incomingSession := cmd.sessionId
  if require_session ∧ ¬ optStrTruthy incomingSession then
    some { kind := "missing_session"
           message := some "sessionId required for all commands except INIT_ROUTE"
           status_code := some 400 }
  else if (match incomingSession with
           | some inc => inc != "" && currentSession != "" && inc != currentSession
           | none => false) then
    some { kind := "stale_session" }
  else
    match cmd.boxVersion with
    | some v => if v < state.boxVersion then some { kind := "stale_version" } else none
    | none => none

/-! ### Command validator (`validation.ValidatedCmd`) -/

/-- The `allowed_types` set of `ValidatedCmd.validate_type`. -/
def allowed_types : List String :=
  ["START_TIMER", "STOP_TIMER", "RESUME_TIMER", "PROGRESS_UPDATE",
   "REQUEST_ACTIVE_COMPETITOR", "SUBMIT_SCORE", "INIT_ROUTE", "REQUEST_STATE",
   "SET_TIME_CRITERION", "REGISTER_TIME", "TIMER_SYNC", "ACTIVE_CLIMBER",
   "RESET_BOX"]

/-- `ValidatedCmd.validate_type` as an acceptance predicate. -/
def validate_type (v : String) : Bool := allowed_types.contains v

/-- Python `sub in s` substring containment. -/
def containsSub (s sub : String) : Bool :=
  let sl := s.toList
  let subl := sub.toList
  (List.range (sl.length + 1)).any (fun i => subl.isPrefixOf (sl.drop i))

/-- The single-quote character, written via its code point. -/
def squote : String := String.singleton (Char.ofNat 39)

/-- The `dangerous_patterns` list of `validate_competitor_name`. -/
def dangerous_patterns : List String :=
  ["--", "/*", "*/", "DROP", "DELETE", "INSERT", "UPDATE", "SELECT",
   "<script", "</script", "javascript:", "onerror=", "onclick=", "onload=",
   "<iframe", "<object", "<embed", "eval(", "alert("]

/-- `ValidatedCmd.validate_competitor_name` (returns the stripped name, or
`none` on rejection). -/
def validate_competitor_name (v : String) : Option String :=
  let v := pyStrip v
  let vUpper := strUpper v
  if dangerous_patterns.any (fun p => containsSub vUpper (strUpper p)) then none
  else if containsSub v squote &&
      (containsSub vUpper "OR" || containsSub vUpper "AND" || containsSub v "=") then none
  else if containsSub v "<" && containsSub v ">" then none
  else if v.length = 0 then none
  else some v

/-- `ValidatedCmd.validate_categorie`. -/
def validate_categorie (v : String) : Option String :=
  let v := pyStrip v
  if v.length = 0 then none else some v

/-- Zero-padded two-digit rendering (`f"{n:02d}"` for `0 ≤ n ≤ 99`). -/
def padTwo (n : ℤ) : String :=
  if n < 10 then "0" ++ toString n else toString n

/-- `ValidatedCmd.validate_timer_preset` (normalizes to `MM:SS`). -/
def validate_timer_preset (v : String) : Option String :=
  let v := pyStrip v
  match strSplitOnChar v ':' with
  | [p0, p1] =>
      match pyParseIntStr p0, pyParseIntStr p1 with
      | some mins, some secs =>
          if mins < 0 || mins > 99 then none
          else if secs < 0 || secs > 59 then none
          else some (padTwo mins ++ ":" ++ padTwo secs)
      | _, _ => none
  | _ => none

/-- The pattern subset checked by `validate_competitors_list`. -/
def competitors_list_patterns : List String :=
  ["--", "/*", "<script", "javascript:", "onerror="]

/-- Per-entry check of `ValidatedCmd.validate_competitors_list`. -/
def validate_competitors_entry (e : RawEntry) : Bool :=
  match e with
  | .nonDict => false
  | .dict c =>
      match c.nume with
      | some (.s name) =>
          let trimmed := pyStrip name
          trimmed != "" &&
            ¬ competitors_list_patterns.any
                (fun p => containsSub (strUpper trimmed) (strUpper p))
      | _ => false

/-- `ValidatedCmd.validate_competitors_list`. -/
def validate_competitors_list (l : List RawEntry) : Bool :=
  l.length ≤ 500 && l.all validate_competitors_entry

/-- Pydantic lax coercion of an `Optional[float]` field (booleans rejected,
numeric strings accepted; non-finite values fail the range bounds anyway and
are folded into rejection). -/
def pydanticFloatField : Option TimeVal → Option (Option ℚ)
  | none => some none
  | some .vNone => some none
  | some (.vBool _) => none
  | some (.vInt n) => some (some (n : ℚ))
  | some (.vFloat q) => some (some q)
  | some .vNonFinite => none
  | some (.vStr s) =>
      match pyParseFiniteFloatStr (pyStrip s) with
      | some q => some (some q)
      | none => none

/-- Pydantic lax coercion of an `Optional[int]` field. -/
def pydanticIntField : Option IdxVal → Option (Option ℤ)
  | none => some none
  | some .vNone => some none
  | some (.vBool _) => none
  | some (.vInt n) => some (some n)
  | some (.vStr s) =>
      match pyParseIntStr (pyStrip s) with
      | some n => some (some n)
      | none => none
  | some .vOther => none

/-- Range check on an optional rational field. -/
def rangeQ (lo hi : ℚ) : Option ℚ → Bool
  | some q => decide (lo ≤ q) && decide (q ≤ hi)
  | none => true

/-- Range check on an optional integer field. -/
def rangeZ (lo hi : ℤ) : Option ℤ → Bool
  | some n => decide (lo ≤ n) && decide (n ≤ hi)
  | none => true

/-- Field validation of an optional `competitor` string (length bounds then
`validate_competitor_name`); outer `none` means rejection. -/
def normCompetitorField : Option String → Option (Option String)
  | none => some none
  | some c =>
      if decide (1 ≤ c.length) && decide (c.length ≤ 255) then
        (validate_competitor_name c).map some
      else none

/-- Field validation of an optional `categorie` string. -/
def normCategorieField : Option String → Option (Option String)
  | none => some none
  | some c =>
      if decide (c.length ≤ 100) then (validate_categorie c).map some else none

/-- Field validation of an optional `timerPreset` string. -/
def normTimerPresetField : Option String → Option (Option String)
  | none => some none
  | some p =>
      if decide (p.length ≤ 20) then (validate_timer_preset p).map some else none

/-- The numeric / length field constraints of `ValidatedCmd` that involve no
normalization. -/
def cmdRangesOk (cmd : Cmd) : Bool :=
  cmd.boxId.isSome
  && rangeZ (-1) 9999 cmd.boxId
  && decide (1 ≤ cmd.type.length) && decide (cmd.type.length ≤ 50)
  && validate_type cmd.type
  && rangeQ (-10) 10 cmd.delta
  && rangeQ 0 100 cmd.score
  && rangeZ 1 999 cmd.routeIndex
  && rangeZ 0 100 cmd.holdsCount
  && (match cmd.competitors with
      | some l => validate_competitors_list l
      | none => true)
  && rangeQ 0 9999 cmd.remaining
  && (match cmd.sessionId with
      | some sid => decide (1 ≤ sid.length) && decide (sid.length ≤ 64)
      | none => true)
  && rangeZ 0 99999 cmd.boxVersion

/-- `ValidatedCmd.validate_command_fields` (the per-type required-field model
validator), evaluated on the validated field values. -/
def requiredFieldsOk (cmd : Cmd) (competitor : Option String)
    (registeredTime : Option ℚ) (competitorIdx : Option ℤ) : Bool :=
  match cmd.type with
  | "INIT_ROUTE" => cmd.routeIndex.isSome && cmd.holdsCount.isSome
  | "PROGRESS_UPDATE" => cmd.delta.isSome
  | "SUBMIT_SCORE" => competitor.isSome || competitorIdx.isSome
  | "REGISTER_TIME" => registeredTime.isSome || cmd.time.isSome
  | "TIMER_SYNC" => cmd.remaining.isSome
  | "SET_TIME_CRITERION" => cmd.timeCriterionEnabled.isSome
  | _ => true

/-- `InputSanitizer.validate_and_sanitize_cmd` / construction of
`ValidatedCmd`: field constraints, field validators (with their
normalizations) and the per-type `validate_command_fields` model validator.
Returns the normalized command on success. -/
def validate_cmd (cmd : Cmd) : Option Cmd :=
  if cmdRangesOk cmd then
    match pydanticFloatField cmd.registeredTime, pydanticIntField cmd.competitorIdx with
    | some registeredTime, some competitorIdx =>
        if rangeQ 0 3600 registeredTime && rangeZ 0 1000 competitorIdx then
          match normCompetitorField cmd.competitor,
                normCategorieField cmd.categorie,
                normTimerPresetField cmd.timerPreset with
          | some competitor, some categorie, some timerPreset =>
              if requiredFieldsOk cmd competitor registeredTime competitorIdx then
                some { cmd with
                  competitor := competitor
                  categorie := categorie
                  timerPreset := timerPreset
                  registeredTime := registeredTime.map TimeVal.vFloat
                  competitorIdx := competitorIdx.map IdxVal.vInt }
              else none
          | _, _, _ => none
        else none
    | _, _ => none
  else none

/-! ### Supporting lemmas -/

/-- On non-negative rationals Python truncation agrees with `floor`. -/
theorem pyTrunc_eq_floor {q : ℚ} (h : 0 ≤ q) : pyTrunc q = q.floor := by
  unfold pyTrunc
  rw [if_neg (not_lt.mpr h)]

/-- `_compute_preparing_climber` of an empty current climber is `""`. -/
theorem compute_preparing_climber_empty (l : List Competitor) :
    compute_preparing_climber l "" = "" := by
  unfold compute_preparing_climber
  simp

/-- `Rat.floor` agrees with the `FloorRing` floor on `ℚ`. -/
theorem rat_floor_eq_intFloor (q : ℚ) : q.floor = ⌊q⌋ := rfl

/-- Python truncation of an integer value is the identity. -/
theorem pyTrunc_intCast (n : ℤ) : pyTrunc ((n : ℤ) : ℚ) = n := by
  unfold pyTrunc
  split_ifs with h
  · rw [show (-((n : ℤ) : ℚ)) = ((-n : ℤ) : ℚ) by push_cast; ring,
        rat_floor_eq_intFloor, Int.floor_intCast]
    omega
  · rw [rat_floor_eq_intFloor, Int.floor_intCast]

/-- The `PROGRESS_UPDATE` integer path (`delta = 0` falsy-defaulted to 1)
changes `holdCount` unless the upper clamp pins it at `holdsCount`. -/
theorem progress_zero_changes (s : ContestState)
    (hpin : ¬ (0 < s.holdsCount ∧ s.holdCount = (s.holdsCount : ℚ))) :
    progress_new_count s (some 0) ≠ s.holdCount := by
  unfold progress_new_count
  simp only []
  intro heq
  split at heq
  next h1 =>
    split at heq
    next h2 =>
      by_cases hneg : ((pyTrunc s.holdCount + 1 : ℤ) : ℚ) < 0
      · simp only [if_pos hneg] at heq
        rw [if_neg ?hc] at heq
        case hc =>
          rintro ⟨ha, hb⟩
          have hpos : (0 : ℚ) < (s.holdsCount : ℚ) := by exact_mod_cast ha
          linarith
        rw [← heq] at hneg
        simp only [pyTrunc] at hneg
        norm_num [rat_floor_eq_intFloor] at hneg
      · simp only [if_neg hneg] at heq
        by_cases hcl : 0 < s.holdsCount ∧
            (s.holdsCount : ℚ) < ((pyTrunc s.holdCount + 1 : ℤ) : ℚ)
        · rw [if_pos hcl] at heq
          exact hpin ⟨hcl.1, heq.symm⟩
        · rw [if_neg hcl] at heq
          have h2 := congrArg pyTrunc heq
          rw [pyTrunc_intCast] at h2
          omega
    next h2 => exact h2 rfl
  next h1 => exact h1 trivial

/-- If some list entry bears the target name, `markFirstAux` leaves a marked
entry with that name in the list. -/
theorem markFirstAux_marks (l : List Competitor) (n : String)
    (h : ∃ c ∈ l, c.nume = n) :
    ∃ c ∈ markFirstAux l n, c.nume = n ∧ c.marked = true := by
  induction l with
  | nil => simp at h
  | cons c rest ih =>
      by_cases hc : c.nume = n
      · refine ⟨{ c with marked := true }, ?_, hc, rfl⟩
        simp [markFirstAux, hc]
      · obtain ⟨d, hd, hdn⟩ := h
        rcases List.mem_cons.mp hd with hd | hd
        · subst hd; exact absurd hdn hc
        · obtain ⟨e, he, hen, hem⟩ := ih ⟨d, hd, hdn⟩
          exact ⟨e, by simp [markFirstAux, hc, he], hen, hem⟩

/-! ### SHA-1 (`hashlib.sha1`), kernel-computable

Words are naturals kept below `2^32`; the bitwise operations are `Nat`'s
built-in binary operations, which the kernel evaluates directly. -/

def xor32 (a b : ℕ) : ℕ := Nat.xor a b

def and32 (a b : ℕ) : ℕ := Nat.land a b

def or32 (a b : ℕ) : ℕ := Nat.lor a b

/-- Bitwise complement of a 32-bit word. -/
def not32 (a : ℕ) : ℕ := 4294967295 - a % 4294967296

/-- Left rotation of a 32-bit word (the two parts occupy disjoint bits, so
addition is their union). -/
def rotl32 (x k : ℕ) : ℕ :=
  (x * 2 ^ k) % 4294967296 + x % 4294967296 / 2 ^ (32 - k)

/-- SHA-1 round constants. -/
def sha1K (i : ℕ) : ℕ :=
  if i < 20 then 0x5A827999
  else if i < 40 then 0x6ED9EBA1
  else if i < 60 then 0x8F1BBCDC
  else 0xCA62C1D6

/-- SHA-1 round functions. -/
def sha1F (i b c d : ℕ) : ℕ :=
  if i < 20 then or32 (and32 b c) (and32 (not32 b) d)
  else if i < 40 then xor32 b (xor32 c d)
  else if i < 60 then or32 (or32 (and32 b c) (and32 b d)) (and32 c d)
  else xor32 b (xor32 c d)

/-- 64 bytes (big-endian) to 16 32-bit words. -/
def sha1Words : List ℕ → List ℕ
  | b0 :: b1 :: b2 :: b3 :: rest => (((b0 * 256 + b1) * 256 + b2) * 256 + b3) :: sha1Words rest
  | _ => []

/-- Message-schedule extension (fuel 64 appends words 16..79). -/
def sha1Extend : ℕ → List ℕ → List ℕ
  | 0, w => w
  | fuel + 1, w =>
      let n := w.length
      let wi := rotl32 (xor32 (w.getD (n - 3) 0)
        (xor32 (w.getD (n - 8) 0) (xor32 (w.getD (n - 14) 0) (w.getD (n - 16) 0)))) 1
      sha1Extend fuel (w ++ [wi])

/-- The 80 compression rounds (structural over the schedule). -/
def sha1Rounds : ℕ → List ℕ → ℕ × ℕ × ℕ × ℕ × ℕ → ℕ × ℕ × ℕ × ℕ × ℕ
  | _, [], st => st
  | i, wi :: rest, (a, b, c, d, e) =>
      let temp := (rotl32 a 5 + sha1F i b c d + e + sha1K i + wi) % 4294967296
      sha1Rounds (i + 1) rest (temp, a, rotl32 b 30, c, d)

/-- Process the padded 64-byte blocks. -/
def sha1Blocks : List (List ℕ) → ℕ × ℕ × ℕ × ℕ × ℕ → ℕ × ℕ × ℕ × ℕ × ℕ
  | [], h => h
  | block :: rest, (h0, h1, h2, h3, h4) =>
      let w := sha1Extend 64 (sha1Words block)
      let r := sha1Rounds 0 w (h0, h1, h2, h3, h4)
      sha1Blocks rest
        ((h0 + r.1) % 4294967296, (h1 + r.2.1) % 4294967296,
         (h2 + r.2.2.1) % 4294967296, (h3 + r.2.2.2.1) % 4294967296,
         (h4 + r.2.2.2.2) % 4294967296)

/-- 64-bit big-endian length encoding. -/
def be8 (n : ℕ) : List ℕ :=
  [n / 2 ^ 56 % 256, n / 2 ^ 48 % 256, n / 2 ^ 40 % 256, n / 2 ^ 32 % 256,
   n / 2 ^ 24 % 256, n / 2 ^ 16 % 256, n / 2 ^ 8 % 256, n % 256]

/-- SHA-1 padding: `0x80`, zeros to 56 mod 64, then the bit length. -/
def sha1Pad (msg : List ℕ) : List ℕ :=
  msg ++ [128] ++ List.replicate ((119 - msg.length % 64) % 64) 0 ++ be8 (msg.length * 8)

/-- Fuel-bounded chunking into 64-byte blocks. -/
def chunk64 : ℕ → List ℕ → List (List ℕ)
  | 0, _ => []
  | _, [] => []
  | fuel + 1, l => l.take 64 :: chunk64 fuel (l.drop 64)

/-- Lowercase hex digit. -/
def hexDigit (n : ℕ) : Char :=
  if n < 10 then Char.ofNat (48 + n) else Char.ofNat (87 + n)

/-- Eight lowercase hex digits of a 32-bit word. -/
def hex8 (n : ℕ) : String :=
  ⟨[hexDigit (n / 2 ^ 28 % 16), hexDigit (n / 2 ^ 24 % 16), hexDigit (n / 2 ^ 20 % 16),
    hexDigit (n / 2 ^ 16 % 16), hexDigit (n / 2 ^ 12 % 16), hexDigit (n / 2 ^ 8 % 16),
    hexDigit (n / 2 ^ 4 % 16), hexDigit (n % 16)]⟩

/-- Lowercase hex SHA-1 digest of a byte list. -/
def sha1Hex (msg : List ℕ) : String :=
  let padded := sha1Pad msg
  let h := sha1Blocks (chunk64 padded.length padded)
    (0x67452301, 0xEFCDAB89, 0x98BADCFE, 0x10325476, 0xC3D2E1F0)
  hex8 h.1 ++ hex8 h.2.1 ++ hex8 h.2.2.1 ++ hex8 h.2.2.2.1 ++ hex8 h.2.2.2.2

/-- UTF-8 encoding of a character as natural-number bytes. -/
def utf8EncodeCharNat (c : Char) : List ℕ :=
  let n := c.toNat
  if n < 128 then [n]
  else if n < 2048 then [192 + n / 64, 128 + n % 64]
  else if n < 65536 then [224 + n / 4096, 128 + n / 64 % 64, 128 + n % 64]
  else [240 + n / 262144, 128 + n / 4096 % 64, 128 + n / 64 % 64, 128 + n % 64]

/-- `hashlib.sha1(s.encode("utf-8")).hexdigest()`. -/
def sha1HexOfString (s : String) : String :=
  sha1Hex (s.data.foldr (fun c acc => utf8EncodeCharNat c ++ acc) [])

/-- FIPS-180 test vector, validating the SHA-1 embedding. -/
theorem sha1_test_vector_abc :
    sha1HexOfString "abc" = "a9993e364706816aba3e25717850c26c9cd0d89d" := by decide

/-! ### Lead ranking engine (`lead_ranking.py`) -/

structure Athlete where
  id : String
  name : String
deriving DecidableEq, Repr

/-- `lead_ranking.LeadResult` (times are finite rationals; Python `nan`/`inf`
values are excluded by the `isfinite` checks wherever the source reads a
time, so `none` models both an absent and a non-finite time). -/
structure LeadResult where
  topped : Bool
  hold : ℤ
  plus : Bool := false
  time_seconds : Option ℚ := none
deriving DecidableEq, Repr

inductive TieStage where
  | previous_rounds
  | time
deriving DecidableEq, Repr

def TieStage.str : TieStage → String
  | .previous_rounds => "previous_rounds"
  | .time => "time"

inductive TieChoice where
  | yes
  | no
  | pending
deriving DecidableEq, Repr

structure TieBreakDecision where
  choice : TieChoice
  previous_ranks_by_athlete : Option (List (String × ℤ)) := none
deriving DecidableEq, Repr

structure TieContext where
  round_name : String
  stage : TieStage
  rank_start : ℕ
  rank_end : ℕ
  affects_podium : Bool
  fingerprint : String
  athletes : List Athlete
  performance : LeadResult
  lineage_key : Option String := none
deriving DecidableEq, Repr

/-- `lead_ranking.TieBreakResolver` (an exception from a resolver is treated
as `pending`, exactly like a `None` result, so `Option` covers it). -/
def TieBreakResolver := List Athlete → TieContext → Option TieBreakDecision

structure RankingRow where
  athlete_id : String
  athlete_name : String
  rank : ℕ
  topped : Bool
  hold : ℤ
  plus : Bool
  time_seconds : Option ℚ
  tb_prev : Bool
  tb_time : Bool
  score_hint : ℚ
deriving DecidableEq, Repr

structure TieEvent where
  fingerprint : String
  stage : TieStage
  rank_start : ℕ
  rank_end : ℕ
  affects_podium : Bool
  members : List RankingRow
  status : String
  detail : Option String := none
  lineage_key : Option String := none
  known_prev_ranks_by_athlete : Option (List (String × ℤ)) := none
  missing_prev_rounds_athlete_ids : Option (List String) := none
  requires_prev_rounds_input : Bool := false
deriving DecidableEq, Repr

structure RankingResult where
  rows : List RankingRow
  tie_events : List TieEvent
  is_resolved : Bool
  has_pending_podium_ties : Bool
  errors : List String
deriving DecidableEq, Repr

/-- `lead_ranking._ResolvedItem`. -/
structure RItem where
  athlete : Athlete
  result : LeadResult
  tb_prev : Bool := false
  tb_time : Bool := false
deriving DecidableEq, Repr

/-- `lead_ranking._result_sort_key`. -/
def result_sort_key (r : LeadResult) : ℤ × ℤ × ℤ :=
  (if r.topped then 1 else 0, r.hold, if r.plus ∧ ¬ r.topped then 1 else 0)

/-- `lead_ranking._score_hint`; `hold + 0.1` is written as the exact fraction
`(10*hold+1)/10` so that proofs can evaluate it. -/
def score_hint (r : LeadResult) : ℚ :=
  if r.topped then (r.hold : ℚ)
  else if r.plus then Rat.divInt (10 * r.hold + 1) 10
  else (r.hold : ℚ)

/-- `lead_ranking._stable_athlete_sort_key`. -/
def stable_athlete_sort_key (it : RItem) : String × String :=
  (strLower it.athlete.name, it.athlete.id)

/-- The base ordering key of `compute_lead_ranking`: descending performance
(negated components) then `(name.lower(), id)`. -/
def itemCmp : RItem → RItem → Ordering :=
  compareLex (compareOn (fun it => -(result_sort_key it.result).1))
    (compareLex (compareOn (fun it => -(result_sort_key it.result).2.1))
      (compareLex (compareOn (fun it => -(result_sort_key it.result).2.2))
        (compareLex (compareOn (fun it => strLower it.athlete.name))
          (compareOn (fun it : RItem => it.athlete.id)))))

/-- The `≤` relation of the base sort (Python `list.sort` on the tuple key). -/
def itemRel (a b : RItem) : Prop := itemCmp a b ≠ .gt

instance : DecidableRel itemRel := fun a b => instDecidableNot

instance itemCmp_transCmp : Batteries.TransCmp itemCmp := by
  unfold itemCmp
  infer_instance

instance itemRel_trans : IsTrans RItem itemRel :=
  ⟨fun _ _ _ h1 h2 => Batteries.TransCmp.le_trans h1 h2⟩

instance itemRel_total : IsTotal RItem itemRel := by
  constructor
  intro a b
  unfold itemRel
  rcases hab : itemCmp a b with _ | _ | _
  · exact Or.inl (by simp [hab])
  · exact Or.inl (by simp [hab])
  · right
    have := @Batteries.OrientedCmp.symm RItem itemCmp _ a b
    rw [hab] at this
    rw [show Ordering.gt.swap = Ordering.lt from rfl] at this
    rw [← this]
    simp

/-- The member ordering inside a fingerprint payload:
`(name.lower(), id)`. -/
def memberCmp : RItem → RItem → Ordering :=
  compareLex (compareOn (fun it => strLower it.athlete.name))
    (compareOn (fun it : RItem => it.athlete.id))

def memberRel (a b : RItem) : Prop := memberCmp a b ≠ .gt

instance : DecidableRel memberRel := fun a b => instDecidableNot

/-! #### Canonical JSON (`json.dumps(..., ensure_ascii=False, sort_keys=True,
separators=(",", ":"))`) restricted to the payload shapes the fingerprints
use.  Keys are emitted directly in their sorted order. -/

/-- JSON string escaping as performed by `json.dumps` (with
`ensure_ascii=False`): only `"`, `\` and control characters are escaped. -/
def jsonEscapeChar (c : Char) : List Char :=
  if c = '\\' then ['\\', '\\']
  else if c = '"' then ['\\', '"']
  else if c.toNat = 8 then ['\\', 'b']
  else if c.toNat = 9 then ['\\', 't']
  else if c.toNat = 10 then ['\\', 'n']
  else if c.toNat = 12 then ['\\', 'f']
  else if c.toNat = 13 then ['\\', 'r']
  else if c.toNat < 32 then
    ['\\', 'u', '0', '0', hexDigit (c.toNat / 16), hexDigit (c.toNat % 16)]
  else [c]

def jsonStr (s : String) : String :=
  "\"" ++ (⟨s.data.foldr (fun c acc => jsonEscapeChar c ++ acc) []⟩ : String) ++ "\""

def jsonBool (b : Bool) : String := if b then "true" else "false"

/-- Decimal mantissa search: find the least `k ≤ fuel` with `d ∣ n·10^k`. -/
def ratDecimalAux : ℕ → ℤ → ℤ → Option (ℤ × ℕ)
  | 0, _, _ => none
  | fuel + 1, n, d =>
      if n % d = 0 then some (n / d, 0)
      else (ratDecimalAux fuel (n * 10) d).map (fun p => (p.1, p.2 + 1))

/-- Digits of a non-negative integer (via `Nat` repr). -/
def natDigits (n : ℕ) : List Char := (toString n).data

/-- `repr(float)` for the decimal-representable rationals the engine meets
(`12.0`, `0.1`, ...); non-decimal rationals fall back to a fraction text
(unreachable for values produced from Python floats in the scenarios the
proofs evaluate). -/
def jsonRat (q : ℚ) : String :=
  match ratDecimalAux 40 q.num (q.den : ℤ) with
  | some (m, 0) => (if m < 0 then "-" else "") ++ (⟨natDigits m.natAbs⟩ : String) ++ ".0"
  | some (m, k) =>
      let sgn := if m < 0 then "-" else ""
      let ds := natDigits m.natAbs
      let ds := if ds.length ≤ k then List.replicate (k + 1 - ds.length) '0' ++ ds else ds
      let ip : List Char := ds.take (ds.length - k)
      let fp : List Char := ds.drop (ds.length - k)
      sgn ++ (⟨ip⟩ : String) ++ "." ++ (⟨fp⟩ : String)
  | none => toString q.num ++ "/" ++ toString q.den

def jsonOptTime : Option ℚ → String
  | none => "null"
  | some q => jsonRat q

def jsonInt (n : ℤ) : String :=
  (if n < 0 then "-" else "") ++ (⟨natDigits n.natAbs⟩ : String)

def jsonNat (n : ℕ) : String := ⟨natDigits n⟩

/-- One member object of a tie-fingerprint payload (keys in sorted order:
hold, id, name, plus, time, topped). -/
def member_payload (it : RItem) : String :=
  "\x7b\"hold\":" ++ jsonInt it.result.hold ++
  ",\"id\":" ++ jsonStr it.athlete.id ++
  ",\"name\":" ++ jsonStr it.athlete.name ++
  ",\"plus\":" ++ jsonBool it.result.plus ++
  ",\"time\":" ++ jsonOptTime it.result.time_seconds ++
  ",\"topped\":" ++ jsonBool it.result.topped ++ "\x7d"

/-- `lead_ranking._build_tie_fingerprint` (payload keys in their
`sort_keys=True` order: affects_podium, members, rank_end, rank_start,
round, stage; members sorted by `(name.lower(), id)`). -/
def build_tie_fingerprint (round_name : String) (stage : TieStage)
    (rank_start rank_end : ℕ) (affects_podium : Bool)
    (members : List RItem) : String :=
  let sortedMembers := List.insertionSort memberRel members
  let payload :=
    "\x7b\"affects_podium\":" ++ jsonBool affects_podium ++
    ",\"members\":[" ++ String.intercalate "," (sortedMembers.map member_payload) ++
    "],\"rank_end\":" ++ jsonNat rank_end ++
    ",\"rank_start\":" ++ jsonNat rank_start ++
    ",\"round\":" ++ jsonStr round_name ++
    ",\"stage\":" ++ jsonStr stage.str ++ "\x7d"
  "tb3:" ++ sha1HexOfString payload

/-- `lead_ranking._build_lineage_key` (keys sorted: context, performance,
round; performance keys sorted: hold, plus, topped). -/
def build_lineage_key (round_name : String) (result : LeadResult) : String :=
  let payload :=
    "\x7b\"context\":\"overall\",\"performance\":\x7b\"hold\":" ++
    jsonInt result.hold ++
    ",\"plus\":" ++ jsonBool (result.plus && !result.topped) ++
    ",\"topped\":" ++ jsonBool result.topped ++
    "\x7d,\"round\":" ++ jsonStr round_name ++ "\x7d"
  "tb-lineage:" ++ sha1HexOfString payload

/-! #### Tie resolution machinery -/

/-- `lead_ranking._default_pending_decision`. -/
def default_pending_decision : TieBreakDecision := ⟨.pending, none⟩

/-- `lead_ranking._resolve_with_fallback`: absent resolver, a `None` result,
or an exception (not representable for a pure resolver) all yield `pending`;
in the typed model `decision.choice` is always one of the three literals. -/
def resolve_with_fallback (resolver : Option TieBreakResolver)
    (group : List RItem) (ctx : TieContext) : TieBreakDecision :=
  match resolver with
  | none => default_pending_decision
  | some res =>
      match res (group.map (·.athlete)) ctx with
      | none => default_pending_decision
      | some d => d

/-- First offending entry of `previous_ranks_by_athlete`
(the `bool` / non-`int` value checks are subsumed by the `≤ 0` test in the
typed model with integer rank values). -/
def validate_prev_ranks_loop (expected : List String) :
    List (String × ℤ) → Option String
  | [] => none
  | (aid, rv) :: rest =>
      if ¬ expected.contains aid then
        some ("invalid_previous_rounds_rank_member:" ++ aid)
      else if rv ≤ 0 then some ("invalid_previous_rounds_rank:" ++ aid)
      else validate_prev_ranks_loop expected rest

/-- `lead_ranking._validate_previous_ranks`. -/
def validate_previous_ranks (members : List RItem)
    (ranks : Option (List (String × ℤ))) : Bool × Option String :=
  match ranks with
  | none => (false, some "missing_previous_rounds_ranks")
  | some m =>
      if m = [] then (false, some "missing_previous_rounds_ranks")
      else
        match validate_prev_ranks_loop (members.map (·.athlete.id)) m with
        | some reason => (false, some reason)
        | none => (true, none)

/-- `lead_ranking._to_ranking_row`. -/
def to_ranking_row (it : RItem) (rank : ℕ) : RankingRow :=
  { athlete_id := it.athlete.id, athlete_name := it.athlete.name, rank := rank,
    topped := it.result.topped, hold := it.result.hold, plus := it.result.plus,
    time_seconds := it.result.time_seconds, tb_prev := it.tb_prev,
    tb_time := it.tb_time, score_hint := score_hint it.result }

/-- `lead_ranking._items_equal_time`. -/
def items_equal_time (a b : RItem) : Bool :=
  a.result.time_seconds == b.result.time_seconds

/-- Fuel-bounded run grouping (the while loops building maximal runs of
equivalent consecutive elements, each run compared against its head). -/
def groupRunsAux {α : Type} (eq : α → α → Bool) : ℕ → List α → List (List α)
  | 0, _ => []
  | _, [] => []
  | fuel + 1, x :: xs =>
      (x :: xs.takeWhile (fun y => eq y x)) ::
        groupRunsAux eq fuel (xs.dropWhile (fun y => eq y x))

def groupRuns {α : Type} (eq : α → α → Bool) (l : List α) : List (List α) :=
  groupRunsAux eq l.length l

/-- `setdefault(rank, []).append(item)` of `_partition_by_prev_ranks`. -/
def groupedAdd (l : List (ℤ × List RItem)) (k : ℤ) (it : RItem) :
    List (ℤ × List RItem) :=
  if (l.find? (fun p => p.1 == k)).isSome then
    l.map (fun p => if p.1 == k then (p.1, p.2 ++ [it]) else p)
  else l ++ [(k, [it])]

/-- `lead_ranking._partition_by_prev_ranks` (ascending previous-round rank,
each bucket sorted by the stable athlete key). -/
def partition_by_prev_ranks (members : List RItem)
    (ranks : List (String × ℤ)) : List (List RItem) :=
  let grouped := members.foldl
    (fun acc it => groupedAdd acc ((dictGet ranks it.athlete.id).getD 0) it) []
  let sortedKeys := List.insertionSort (fun a b : ℤ => a ≤ b) (grouped.map (·.1))
  sortedKeys.map (fun k =>
    List.insertionSort memberRel
      (((grouped.find? (fun p => p.1 == k)).map (·.2)).getD []))

/-- The `_partition_by_time` sort key: `(time or inf, name.lower(), id)`.
`time_seconds or math.inf` is Python truthiness: both `None` and `0` are
falsy, so a zero time sorts as infinity. -/
def timeSortVal (ts : Option ℚ) : Option ℚ :=
  match ts with
  | none => none
  | some t => if t = 0 then none else some t

def timePartCmp (a b : RItem) : Ordering :=
  let tc : Ordering :=
    match timeSortVal a.result.time_seconds, timeSortVal b.result.time_seconds with
    | none, none => .eq
    | none, some _ => .gt
    | some _, none => .lt
    | some x, some y => if x < y then .lt else if y < x then .gt else .eq
  tc.then
    ((compare (strLower a.athlete.name) (strLower b.athlete.name)).then
      (compare a.athlete.id b.athlete.id))

def timePartRel (a b : RItem) : Prop := timePartCmp a b ≠ .gt

instance : DecidableRel timePartRel := fun _ _ => instDecidableNot

/-- `lead_ranking._partition_by_time`. -/
def partition_by_time (members : List RItem) : List (List RItem) :=
  groupRuns items_equal_time (List.insertionSort timePartRel members)

/-- Junk item used to totalize the `members[0]` accesses (the source indexes
only non-empty groups). -/
def defaultRItem : RItem :=
  { athlete := { id := "", name := "" },
    result := { topped := false, hold := 0, plus := false, time_seconds := none } }

def headResult (members : List RItem) : LeadResult :=
  (members.headD defaultRItem).result

/-- String sort used for `tuple(sorted(ids))`. -/
def strLeRel (a b : String) : Prop := compare a b ≠ .gt

instance : DecidableRel strLeRel := fun _ _ => instDecidableNot

/-- `lead_ranking._resolve_time_stage`.  The mutated `tie_events` / `errors`
lists are modelled by returning the appended events and error strings; the
returned Bool is the resolution flag.  The in-place `item.tb_time = True`
mutation is modelled by flag-updated copies; the `identical_time` event's
member rows are built from the mutated items, as in the source. -/
def resolve_time_stage (members : List RItem) (rank_start podium_places : ℕ)
    (round_name : String) (resolver : Option TieBreakResolver) :
    List (List RItem) × Bool × List TieEvent × List String :=
  let affects_podium : Bool := decide (rank_start ≤ podium_places)
  let rank_end := rank_start + members.length - 1
  let fp := build_tie_fingerprint round_name .time rank_start rank_end
    affects_podium members
  let ctx : TieContext :=
    { round_name := round_name, stage := .time, rank_start := rank_start,
      rank_end := rank_end, affects_podium := affects_podium, fingerprint := fp,
      athletes := members.map (·.athlete), performance := headResult members }
  let decision := resolve_with_fallback resolver members ctx
  match decision.choice with
  | .pending =>
      ([members], !affects_podium,
       [{ fingerprint := fp, stage := .time, rank_start := rank_start,
          rank_end := rank_end, affects_podium := affects_podium,
          members := members.map (to_ranking_row · rank_start),
          status := "pending", detail := some "time_tiebreak_pending" }], [])
  | .no =>
      if affects_podium then
        ([members], false,
         [{ fingerprint := fp, stage := .time, rank_start := rank_start,
            rank_end := rank_end, affects_podium := true,
            members := members.map (to_ranking_row · rank_start),
            status := "error", detail := some "podium_keep_tied_not_allowed" }],
         ["podium_time_tiebreak_keep_tied_not_allowed:" ++ fp])
      else ([members], true, [], [])
  | .yes =>
      let missing_times :=
        (members.filter (fun it => it.result.time_seconds.isNone)).map (·.athlete.id)
      if missing_times ≠ [] then
        ([members], if affects_podium then false else true,
         [{ fingerprint := fp, stage := .time, rank_start := rank_start,
            rank_end := rank_end, affects_podium := affects_podium,
            members := members.map (to_ranking_row · rank_start),
            status := "error", detail := some "missing_time_seconds" }],
         ["time_tiebreak_missing_times:" ++ fp])
      else
        let partitions := (partition_by_time members).map
          (List.map (fun it => { it with tb_time := true }))
        let has_unresolved := partitions.any (fun p => 1 < p.length)
        let evs :=
          if has_unresolved && affects_podium then
            [{ fingerprint := fp, stage := .time, rank_start := rank_start,
               rank_end := rank_end, affects_podium := true,
               members := members.map
                 (fun it => to_ranking_row { it with tb_time := true } rank_start),
               status := "error", detail := some "identical_time_keeps_podium_tie" }]
          else []
        (partitions, !(has_unresolved && affects_podium), evs, [])

/-- The partition loop of `_resolve_group` on a `yes` decision: chunk starts
accumulate `consumed`; a singleton first partition gets the `tb_prev` badge;
larger partitions recurse into the time stage. -/
def processPrevParts (rank_start podium_places : ℕ) (round_name : String)
    (resolver : Option TieBreakResolver) :
    List (List RItem) → ℕ → ℕ →
    List (List RItem) × Bool × List TieEvent × List String
  | [], _, _ => ([], true, [], [])
  | part :: rest, idx, consumed =>
      let part_rank_start := rank_start + consumed
      let consumed2 := consumed + part.length
      if part.length = 1 then
        let part2 :=
          if idx = 0 then part.map (fun it => { it with tb_prev := true }) else part
        let r := processPrevParts rank_start podium_places round_name resolver
          rest (idx + 1) consumed2
        (part2 :: r.1, r.2.1, r.2.2.1, r.2.2.2)
      else
        let t := resolve_time_stage part part_rank_start podium_places
          round_name resolver
        let r := processPrevParts rank_start podium_places round_name resolver
          rest (idx + 1) consumed2
        (t.1 ++ r.1, t.2.1 && r.2.1, t.2.2.1 ++ r.2.2.1, t.2.2.2 ++ r.2.2.2)

/-- Member rows of the trailing `previous_rounds_missing_members` event are
built from the (by then mutated) member objects: reconstruct each member's
flag-updated copy from the produced chunks. -/
def flaggedCopy (updated : List RItem) (it : RItem) : RItem :=
  (updated.find? (fun u => u.athlete == it.athlete)).getD it

/-- `lead_ranking._resolve_group`. -/
def resolve_group (members : List RItem) (rank_start podium_places : ℕ)
    (round_name : String) (resolver : Option TieBreakResolver) :
    List (List RItem) × Bool × List TieEvent × List String :=
  let affects_podium : Bool := decide (rank_start ≤ podium_places)
  if !affects_podium then ([members], true, [], [])
  else
    let rank_end := rank_start + members.length - 1
    let fp := build_tie_fingerprint round_name .previous_rounds rank_start
      rank_end affects_podium members
    let lineage_key := build_lineage_key round_name (headResult members)
    let ctx : TieContext :=
      { round_name := round_name, stage := .previous_rounds,
        rank_start := rank_start, rank_end := rank_end,
        affects_podium := affects_podium, fingerprint := fp,
        lineage_key := some lineage_key,
        athletes := members.map (·.athlete), performance := headResult members }
    let decision := resolve_with_fallback resolver members ctx
    match decision.choice with
    | .pending =>
        ([members], !affects_podium,
         [{ fingerprint := fp, stage := .previous_rounds,
            rank_start := rank_start, rank_end := rank_end,
            affects_podium := affects_podium,
            members := members.map (to_ranking_row · rank_start),
            status := "pending", detail := some "previous_rounds_pending",
            lineage_key := some lineage_key,
            known_prev_ranks_by_athlete := some [],
            missing_prev_rounds_athlete_ids :=
              some (List.insertionSort strLeRel (members.map (·.athlete.id))),
            requires_prev_rounds_input := true }], [])
    | .no =>
        resolve_time_stage members rank_start podium_places round_name resolver
    | .yes =>
        let v := validate_previous_ranks members decision.previous_ranks_by_athlete
        if !v.1 then
          ([members], if affects_podium then false else true,
           [{ fingerprint := fp, stage := .previous_rounds,
              rank_start := rank_start, rank_end := rank_end,
              affects_podium := affects_podium,
              members := members.map (to_ranking_row · rank_start),
              status := "error", detail := v.2,
              lineage_key := some lineage_key,
              known_prev_ranks_by_athlete := some [],
              missing_prev_rounds_athlete_ids :=
                some (List.insertionSort strLeRel (members.map (·.athlete.id))),
              requires_prev_rounds_input := true }],
           ["invalid_previous_rounds_decision:" ++ fp ++ ":" ++ (v.2.getD "None")])
        else
          let ranks := decision.previous_ranks_by_athlete.getD []
          let known := members.filter (fun it => (dictGet ranks it.athlete.id).isSome)
          let missing := members.filter (fun it => (dictGet ranks it.athlete.id).isNone)
          if known = [] then
            ([members], false,
             [{ fingerprint := fp, stage := .previous_rounds,
                rank_start := rank_start, rank_end := rank_end,
                affects_podium := affects_podium,
                members := members.map (to_ranking_row · rank_start),
                status := "pending", detail := some "previous_rounds_missing_members",
                lineage_key := some lineage_key,
                known_prev_ranks_by_athlete := some [],
                missing_prev_rounds_athlete_ids :=
                  some (List.insertionSort strLeRel (missing.map (·.athlete.id))),
                requires_prev_rounds_input := true }], [])
          else
            let partitions := partition_by_prev_ranks known ranks
            let r := processPrevParts rank_start podium_places round_name resolver
              partitions 0 0
            if missing ≠ [] then
              let missing_sorted := List.insertionSort memberRel missing
              let updated := r.1.foldr (fun c acc => c ++ acc) []
              (r.1 ++ [missing_sorted], false,
               r.2.2.1 ++
                 [{ fingerprint := fp, stage := .previous_rounds,
                    rank_start := rank_start, rank_end := rank_end,
                    affects_podium := affects_podium,
                    members := members.map
                      (fun it => to_ranking_row (flaggedCopy updated it) rank_start),
                    status := "pending",
                    detail := some "previous_rounds_missing_members",
                    lineage_key := some lineage_key,
                    known_prev_ranks_by_athlete := some (known.foldl
                      (fun acc it => dictSet acc it.athlete.id
                        ((dictGet ranks it.athlete.id).getD 0)) []),
                    missing_prev_rounds_athlete_ids :=
                      some (List.insertionSort strLeRel
                        (missing_sorted.map (·.athlete.id))),
                    requires_prev_rounds_input := true }],
               r.2.2.2)
            else (r.1, r.2.1, r.2.2.1, r.2.2.2)

/-- The main grouping loop of `compute_lead_ranking`: `pos` counts the items
already placed into `final_chunks` (so the next group's `rank_start` is
`pos + 1`). -/
def processGroups (podium_places : ℕ) (round_name : String)
    (resolver : Option TieBreakResolver) :
    List (List RItem) → ℕ → List (List RItem) × List TieEvent × List String
  | [], _ => ([], [], [])
  | g :: rest, pos =>
      if g.length ≤ 1 then
        let r := processGroups podium_places round_name resolver rest (pos + g.length)
        (g :: r.1, r.2.1, r.2.2)
      else
        let gr := resolve_group g (pos + 1) podium_places round_name resolver
        let added := gr.1.foldl (fun n c => n + c.length) 0
        let r := processGroups podium_places round_name resolver rest (pos + added)
        (gr.1 ++ r.1, gr.2.2.1 ++ r.2.1, gr.2.2.2 ++ r.2.2)

/-- Row assembly: each chunk's rows share the chunk-start rank; a chunk of
more than one member at a podium rank marks `has_pending_podium`. -/
def buildRows (podium_places : ℕ) :
    List (List RItem) → ℕ → List RankingRow × Bool
  | [], _ => ([], false)
  | chunk :: rest, pos =>
      let rowsHere := (List.insertionSort memberRel chunk).map
        (fun it => to_ranking_row it pos)
      let r := buildRows podium_places rest (pos + chunk.length)
      (rowsHere ++ r.1,
       (decide (1 < chunk.length) && decide (pos ≤ podium_places)) || r.2)

/-- Final row order: `(rank, name.lower(), id)`. -/
def rowCmp : RankingRow → RankingRow → Ordering :=
  compareLex (compareOn (fun r : RankingRow => r.rank))
    (compareLex (compareOn (fun r : RankingRow => strLower r.athlete_name))
      (compareOn (fun r : RankingRow => r.athlete_id)))

def rowRel (a b : RankingRow) : Prop := rowCmp a b ≠ .gt

instance : DecidableRel rowRel := fun _ _ => instDecidableNot

/-- The raw performance key re-derived from a row in the collapse pass. -/
def rowPerfKey (r : RankingRow) : ℤ × ℤ × ℤ :=
  (if r.topped then 1 else 0, r.hold, if r.plus ∧ ¬ r.topped then 1 else 0)

/-- The collapse pass ordering: descending performance, then
`(name.lower(), id)`. -/
def byPerfCmp : RankingRow → RankingRow → Ordering :=
  compareLex (compareOn (fun r : RankingRow => -(rowPerfKey r).1))
    (compareLex (compareOn (fun r : RankingRow => -(rowPerfKey r).2.1))
      (compareLex (compareOn (fun r : RankingRow => -(rowPerfKey r).2.2))
        (compareLex (compareOn (fun r : RankingRow => strLower r.athlete_name))
          (compareOn (fun r : RankingRow => r.athlete_id)))))

def byPerfRel (a b : RankingRow) : Prop := byPerfCmp a b ≠ .gt

instance : DecidableRel byPerfRel := fun _ _ => instDecidableNot

def rowPerfEq (a b : RankingRow) : Bool := rowPerfKey a == rowPerfKey b

def minRankOf (l : List RankingRow) : ℕ :=
  match l with
  | [] => 0
  | r :: rest => rest.foldl (fun m x => min m x.rank) r.rank

def maxRankOf (l : List RankingRow) : ℕ :=
  match l with
  | [] => 0
  | r :: rest => rest.foldl (fun m x => max m x.rank) r.rank

/-- One performance group's contribution to the collapse map: groups entirely
beyond the podium collapse to their minimum rank; groups straddling the
boundary collapse only their tail. -/
def collapseStep (podium : ℕ) (acc : List (String × ℕ))
    (g : List RankingRow) : List (String × ℕ) :=
  if 1 < g.length then
    let mn := minRankOf g
    let mx := maxRankOf g
    if podium < mn then
      g.foldl (fun a r => dictSet a r.athlete_id mn) acc
    else if podium < mx then
      let tail := g.filter (fun r => decide (podium < r.rank))
      if tail ≠ [] then
        let shared := minRankOf tail
        tail.foldl (fun a r => dictSet a r.athlete_id shared) acc
      else acc
    else acc
  else acc

/-- The podium-boundary collapse map (`collapsed` in the source). -/
def collapseOf (podium : ℕ) (groups : List (List RankingRow)) :
    List (String × ℕ) :=
  groups.foldl (collapseStep podium) []

/-- The grouping test of the main loop: identical `_result_sort_key`. -/
def itemKeyEq (a b : RItem) : Bool :=
  result_sort_key a.result == result_sort_key b.result

/-- Everything in `compute_lead_ranking` after the base sort (split so that
permutation arguments can reuse the sorted list). -/
def computeFromSorted (base : List RItem) (resolver : Option TieBreakResolver)
    (podium : ℕ) (round_name : String) : RankingResult :=
  let groups := groupRuns itemKeyEq base
  let pr := processGroups podium round_name resolver groups 0
  let br := buildRows podium pr.1 1
  let rows1 := List.insertionSort rowRel br.1
  let by_perf := List.insertionSort byPerfRel rows1
  let collapsed := collapseOf podium (groupRuns rowPerfEq by_perf)
  let rows2 :=
    if collapsed ≠ [] then
      List.insertionSort rowRel
        (rows1.map (fun r =>
          { r with rank := (dictGet collapsed r.athlete_id).getD r.rank }))
    else rows1
  let has_pending := br.2 || pr.2.1.any
    (fun e => e.affects_podium && (e.status == "pending" || e.status == "error"))
  { rows := rows2, tie_events := pr.2.1, is_resolved := !has_pending,
    has_pending_podium_ties := has_pending, errors := pr.2.2 }

/-- The `resolved_items` accumulation of `compute_lead_ranking`: athletes
missing from the results mapping are skipped. -/
def resolvedItems (athletes : List Athlete)
    (results : List (String × LeadResult)) : List RItem :=
  athletes.filterMap
    (fun a => (dictGet results a.id).map
      (fun r => ({ athlete := a, result := r } : RItem)))

/-- `lead_ranking.compute_lead_ranking`. -/
def compute_lead_ranking (athletes : List Athlete)
    (results : List (String × LeadResult))
    (tie_break_resolver : Option TieBreakResolver) (podium_places : ℤ := 3)
    (round_name : String := "Final") : RankingResult :=
  let podium : ℕ := (max 1 (pyOrInt (some podium_places) 3)).toNat
  computeFromSorted
    (List.insertionSort itemRel (resolvedItems athletes results))
    tie_break_resolver podium round_name

/-! #### Notions the ranking theorems quantify over -/

/-- Strict lexicographic order on `_result_sort_key` triples: `keyLt a b`
says the performance with key `a` is strictly dominated by the one with
key `b` under the descending `(topped, hold, plus-when-not-topped)`
comparator. -/
def keyLt (a b : ℤ × ℤ × ℤ) : Prop :=
  a.1 < b.1 ∨ (a.1 = b.1 ∧ (a.2.1 < b.2.1 ∨ (a.2.1 = b.2.1 ∧ a.2.2 < b.2.2)))

instance (a b : ℤ × ℤ × ℤ) : Decidable (keyLt a b) := by
  unfold keyLt
  infer_instance

/-- Performance key of a resolved item. -/
def ikey (it : RItem) : ℤ × ℤ × ℤ := result_sort_key it.result

/-- Every item of `c` is one of `members`, up to the mutable tie-break badge
flags (`tb_prev` / `tb_time`). -/
def ItemsFrom (c members : List RItem) : Prop :=
  ∀ it ∈ c, ∃ m ∈ members, it.athlete = m.athlete ∧ it.result = m.result

/-- Chunk-level gradedness: nothing in the earlier chunk is strictly
dominated by anything in the later chunk. -/
def chunkGE (c d : List RItem) : Prop :=
  ∀ a ∈ c, ∀ b ∈ d, ¬ keyLt (ikey a) (ikey b)

/-- Placeholder row for total list indexing in closed statements. -/
def dRow : RankingRow :=
  { athlete_id := "", athlete_name := "", rank := 0, topped := false,
    hold := 0, plus := false, time_seconds := none, tb_prev := false,
    tb_time := false, score_hint := 0 }

/-! ### Concrete scenario used by the witnesses -/

/-- Fallback outcome for total extraction of an `Except` result. -/
def outcomeOr (e : Except String CommandOutcome) (d : CommandOutcome) : CommandOutcome :=
  match e with
  | .ok o => o
  | .error _ => d

/-- Dummy outcome (never reached in the witnesses). -/
def wErr : CommandOutcome :=
  { state := default_state "ERR", cmd_payload := { type := "ERR" },
    snapshot_required := false }

/-- Witness `INIT_ROUTE` command: route 1, 3 holds, competitors A and B. -/
def wInitCmd : Cmd :=
  { type := "INIT_ROUTE", boxId := some 1, routeIndex := some 1,
    holdsCount := some 3,
    competitors := some [.dict { nume := some (.s "A") },
                         .dict { nume := some (.s "B") }] }

def wInitOut : CommandOutcome :=
  outcomeOr (apply_transition (default_state "sid-flow") wInitCmd "u1") wErr

def wState1 : ContestState := wInitOut.state

def wSubCmd : Cmd :=
  { type := "SUBMIT_SCORE", boxId := some 1, competitor := some "A",
    score := some 7 }

def wSubOut : CommandOutcome :=
  outcomeOr (apply_transition wState1 wSubCmd "u2") wErr

def wProgCmd : Cmd :=
  { type := "PROGRESS_UPDATE", boxId := some 1, delta := some 0,
    sessionId := some "sid-flow", boxVersion := some 1 }

def wProgOut : CommandOutcome :=
  outcomeOr (apply_transition wState1 wProgCmd "u3") wErr

def wSyncOut : CommandOutcome :=
  outcomeOr (apply_transition (default_state "sid")
    { type := "TIMER_SYNC", boxId := some 1, remaining := some 42 } "u") wErr

def wRegOut : CommandOutcome :=
  outcomeOr (apply_transition (default_state "sid-rt")
    { type := "REGISTER_TIME", boxId := some 1,
      registeredTime := some (.vFloat 15) } "u") wErr



/-- Concrete ranking scenario for the C5 witness. -/
def wC5res : List (String × LeadResult) :=
  [("A", { topped := true, hold := 40 }), ("B", { topped := false, hold := 30 })]

def wC5out : RankingResult :=
  compute_lead_ranking [⟨"A", "Ana"⟩, ⟨"B", "Bob"⟩] wC5res none 3 "Final"

def wC5x : RankingRow := wC5out.rows.getD 0 dRow

def wC5y : RankingRow := wC5out.rows.getD 1 dRow


/-- Roster with a duplicated athlete id and case-differing names: the C6
counterexample scenario. -/
def wC6res : List (String × LeadResult) := [("A", { topped := false, hold := 30 })]

def wC6a : List Athlete := [⟨"A", "Ana"⟩, ⟨"A", "ANA"⟩]

def wC6b : List Athlete := [⟨"A", "ANA"⟩, ⟨"A", "Ana"⟩]

/-- Distinct-id tie scenario for the C6 witness. -/
def wC6res2 : List (String × LeadResult) :=
  [("A", { topped := false, hold := 30 }), ("B", { topped := false, hold := 30 })]

def wC6s1 : List Athlete := [⟨"A", "Ana"⟩, ⟨"B", "Bob"⟩]

def wC6s2 : List Athlete := [⟨"B", "Bob"⟩, ⟨"A", "Ana"⟩]

/-! ### Branch dispatch lemmas for `apply_transition` -/

/-- The command types carrying a dedicated branch in `_apply_transition`. -/
def handled_types : List String :=
  ["INIT_ROUTE", "START_TIMER", "STOP_TIMER", "RESUME_TIMER", "PROGRESS_UPDATE",
   "REGISTER_TIME", "TIMER_SYNC", "SET_TIMER_PRESET", "SUBMIT_SCORE",
   "SET_TIME_CRITERION", "SET_TIME_TIEBREAK_DECISION",
   "SET_PREV_ROUNDS_TIEBREAK_DECISION", "RESET_PARTIAL", "RESET_BOX"]

theorem apply_transition_passthrough (s : ContestState) (cmd : Cmd) (fresh : String)
    (h : cmd.type ∉ handled_types) :
    apply_transition s cmd fresh =
      .ok { state := s, cmd_payload := cmd, snapshot_required := false } := by
  simp only [handled_types, List.mem_cons, List.not_mem_nil, or_false, not_or] at h
  obtain ⟨h1, h2, h3, h4, h5, h6, h7, h8, h9, h10, h11, h12, h13, h14⟩ := h
  unfold apply_transition
  rw [if_neg h1, if_neg h2, if_neg h3, if_neg h4, if_neg h5, if_neg h6,
      if_neg h7, if_neg h8, if_neg h9, if_neg h10, if_neg h11, if_neg h12,
      if_neg h13, if_neg h14]

theorem apply_transition_start_timer (s : ContestState) (cmd : Cmd) (fresh : String)
    (ht : cmd.type = "START_TIMER") :
    apply_transition s cmd fresh =
      .ok { state := { s with started := true, timerState := "running",
                              lastRegisteredTime := none, remaining := none },
            cmd_payload := cmd, snapshot_required := true } := by
  unfold apply_transition
  rw [ht, if_neg (by decide), if_pos rfl]

theorem apply_transition_stop_timer (s : ContestState) (cmd : Cmd) (fresh : String)
    (ht : cmd.type = "STOP_TIMER") :
    apply_transition s cmd fresh =
      .ok { state := { s with started := false, timerState := "paused" },
            cmd_payload := cmd, snapshot_required := true } := by
  unfold apply_transition
  rw [ht, if_neg (by decide), if_neg (by decide), if_pos rfl]

theorem apply_transition_resume_timer (s : ContestState) (cmd : Cmd) (fresh : String)
    (ht : cmd.type = "RESUME_TIMER") :
    apply_transition s cmd fresh =
      .ok { state := { s with started := true, timerState := "running",
                              lastRegisteredTime := none },
            cmd_payload := cmd, snapshot_required := true } := by
  unfold apply_transition
  rw [ht, if_neg (by decide), if_neg (by decide), if_neg (by decide), if_pos rfl]

theorem apply_transition_progress_update (s : ContestState) (cmd : Cmd) (fresh : String)
    (ht : cmd.type = "PROGRESS_UPDATE") :
    apply_transition s cmd fresh =
      .ok { state := { s with holdCount := progress_new_count s cmd.delta },
            cmd_payload := cmd, snapshot_required := true } := by
  unfold apply_transition
  rw [ht, if_neg (by decide), if_neg (by decide), if_neg (by decide),
      if_neg (by decide), if_pos rfl]

theorem apply_transition_register_time (s : ContestState) (cmd : Cmd) (fresh : String)
    (ht : cmd.type = "REGISTER_TIME") :
    apply_transition s cmd fresh =
      .ok { state := { s with
              lastRegisteredTime := match cmd.registeredTime with
                | some v =>
                    match coerce_optional_time v with
                    | some q => some q
                    | none => s.lastRegisteredTime
                | none => s.lastRegisteredTime },
            cmd_payload := cmd, snapshot_required := true } := by
  unfold apply_transition
  rw [ht, if_neg (by decide), if_neg (by decide), if_neg (by decide),
      if_neg (by decide), if_neg (by decide), if_pos rfl]

theorem apply_transition_timer_sync (s : ContestState) (cmd : Cmd) (fresh : String)
    (ht : cmd.type = "TIMER_SYNC") :
    apply_transition s cmd fresh =
      .ok { state := { s with remaining := cmd.remaining },
            cmd_payload := cmd, snapshot_required := false } := by
  unfold apply_transition
  rw [ht, if_neg (by decide), if_neg (by decide), if_neg (by decide),
      if_neg (by decide), if_neg (by decide), if_neg (by decide), if_pos rfl]

theorem apply_transition_set_time_criterion (s : ContestState) (cmd : Cmd) (fresh : String)
    (ht : cmd.type = "SET_TIME_CRITERION") :
    apply_transition s cmd fresh =
      .ok { state := { s with
              timeCriterionEnabled := match cmd.timeCriterionEnabled with
                | some b => b
                | none => s.timeCriterionEnabled },
            cmd_payload := cmd, snapshot_required := true } := by
  unfold apply_transition
  rw [ht, if_neg (by decide), if_neg (by decide), if_neg (by decide),
      if_neg (by decide), if_neg (by decide), if_neg (by decide),
      if_neg (by decide), if_neg (by decide), if_neg (by decide), if_pos rfl]

/-! ### Claim theorems -/

/-- C2: applying an `INIT_ROUTE` command increments `boxVersion` by exactly 1;
when the resolved `routeIndex` is `1` (the default) the resulting `scores`,
`times`, all tiebreak decision maps and resolved pointers are cleared;
when it is `> 1` the resulting `scores` and `times` equal the input's. -/
theorem C2_init_route_epoch_and_clearing (s : ContestState) (cmd : Cmd)
    (fresh : String) (out : CommandOutcome)
    (ht : cmd.type = "INIT_ROUTE")
    (h : apply_transition s cmd fresh = .ok out) :
    out.state.boxVersion = s.boxVersion + 1 ∧
    (pyOrInt cmd.routeIndex 1 = 1 →
      out.state.scores = [] ∧ out.state.times = [] ∧
      out.state.timeTiebreakDecisions = [] ∧
      out.state.timeTiebreakResolvedFingerprint = none ∧
      out.state.timeTiebreakResolvedDecision = none ∧
      out.state.prevRoundsTiebreakDecisions = [] ∧
      out.state.prevRoundsTiebreakOrders = [] ∧
      out.state.prevRoundsTiebreakRanks = [] ∧
      out.state.prevRoundsTiebreakResolvedFingerprint = none ∧
      out.state.prevRoundsTiebreakResolvedDecision = none) ∧
    (1 < pyOrInt cmd.routeIndex 1 →
      out.state.scores = s.scores ∧ out.state.times = s.times) := by
  unfold apply_transition at h
  rw [ht] at h
  rw [if_pos rfl] at h
  simp only [Except.ok.injEq] at h
  subst h
  by_cases hr : pyOrInt cmd.routeIndex 1 = 1
  · refine ⟨by simp [hr], fun _ => by simp [hr], fun hlt => ?_⟩
    rw [hr] at hlt
    exact absurd hlt (lt_irrefl 1)
  · exact ⟨by simp [hr], fun h1 => absurd h1 hr, fun _ => by simp [hr]⟩

/-- C3: `validate_session_and_version` returns `missing_session` (advisory
status 400) when `require_session` holds and the command carries no (truthy)
`sessionId`; `stale_session` when both the command's and the state's
`sessionId` are present and differ; `stale_version` when the earlier checks
pass and the command's `boxVersion` is present and strictly below the
state's; and `none` (accept) in every other case — in particular a
`boxVersion` equal to or above the state's is accepted. -/
theorem C3_session_gate (state : ContestState) (cmd : Cmd) (require_session : Bool) :
    (require_session = true → optStrTruthy cmd.sessionId = false →
      validate_session_and_version state cmd require_session =
        some { kind := "missing_session"
               message := some "sessionId required for all commands except INIT_ROUTE"
               status_code := some 400 }) ∧
    (∀ inc, cmd.sessionId = some inc → inc ≠ "" → state.sessionId ≠ "" →
      inc ≠ state.sessionId →
      validate_session_and_version state cmd require_session =
        some { kind := "stale_session" }) ∧
    ((require_session = true → optStrTruthy cmd.sessionId = true) →
      (∀ inc, cmd.sessionId = some inc → inc ≠ "" → state.sessionId ≠ "" →
        inc = state.sessionId) →
      (∀ v, cmd.boxVersion = some v → v < state.boxVersion →
        validate_session_and_version state cmd require_session =
          some { kind := "stale_version" }) ∧
      ((∀ v, cmd.boxVersion = some v → state.boxVersion ≤ v) →
        validate_session_and_version state cmd require_session = none)) := by
  unfold validate_session_and_version
  refine ⟨fun hreq habs => ?_, fun inc hinc hne hcur hdiff => ?_, fun hpass hsame => ?_⟩
  · rw [if_pos (by simp [hreq, habs])]
  · have htruthy : optStrTruthy cmd.sessionId = true := by
      simp [optStrTruthy, strTruthy, hinc, hne]
    rw [if_neg (by simp [htruthy])]
    rw [if_pos (by simp [hinc, hne, hcur, hdiff])]
  · have hnot1 : ¬ (require_session = true ∧ ¬ optStrTruthy cmd.sessionId = true) := by
      rintro ⟨h1, h2⟩
      exact h2 (hpass h1)
    have hnot2 : ¬ ((match cmd.sessionId with
        | some inc => inc != "" && state.sessionId != "" && inc != state.sessionId
        | none => false) = true) := by
      cases hs : cmd.sessionId with
      | none => simp
      | some inc =>
          simp only [Bool.and_eq_true, bne_iff_ne, ne_eq]
          rintro ⟨⟨h1, h2⟩, h3⟩
          exact h3 (hsame inc hs h1 h2)
    rw [if_neg (by simpa using hnot1), if_neg hnot2]
    refine ⟨fun v hv hlt => ?_, fun hge => ?_⟩
    · rw [hv]
      simp [hlt]
    · cases hv : cmd.boxVersion with
      | none => rfl
      | some v => simp [not_lt.mpr (hge v hv)]

/-- C7 (counterexample): the claim requires a *non-negative* finite float for
`lastRegisteredTime` to be updated, but `REGISTER_TIME` with the finite
negative value `-3.5` does update it (the transition never checks the sign;
only the upstream validator does). -/
theorem C7_counterexample :
    (apply_transition (default_state "sid")
        { type := "REGISTER_TIME", boxId := some 1,
          registeredTime := some (.vFloat (-3)) } "u").toOption.map
      (fun o => o.state.lastRegisteredTime) = some (some (-3)) ∧
    (default_state "sid").lastRegisteredTime = none ∧
    ¬ (0 ≤ (-3 : ℚ)) := by decide

/-- C7 (amended): applying a `REGISTER_TIME` command sets
`lastRegisteredTime` to the command's `registeredTime` exactly when that
value coerces to a finite float (booleans never coerce; the sign is *not*
checked); otherwise — including an absent or non-coercible value —
`lastRegisteredTime` is left unchanged. -/
theorem C7_register_time (s : ContestState) (cmd : Cmd) (fresh : String)
    (out : CommandOutcome) (ht : cmd.type = "REGISTER_TIME")
    (h : apply_transition s cmd fresh = .ok out) :
    (∀ v q, cmd.registeredTime = some v → coerce_optional_time v = some q →
      out.state.lastRegisteredTime = some q) ∧
    (∀ v, cmd.registeredTime = some v → coerce_optional_time v = none →
      out.state.lastRegisteredTime = s.lastRegisteredTime) ∧
    (cmd.registeredTime = none →
      out.state.lastRegisteredTime = s.lastRegisteredTime) ∧
    (∀ b, coerce_optional_time (.vBool b) = none) := by
  unfold apply_transition at h
  rw [ht] at h
  rw [if_neg (by decide), if_neg (by decide), if_neg (by decide),
      if_neg (by decide), if_neg (by decide), if_pos rfl] at h
  simp only [Except.ok.injEq] at h
  subst h
  refine ⟨fun v q hv hq => ?_, fun v hv hq => ?_, fun hv => ?_, fun b => rfl⟩
  · simp [hv, hq]
  · simp [hv, hq]
  · simp [hv]

/-- C8 (counterexample): `TIMER_SYNC` is *not* the only recognized command
type whose outcome has `snapshot_required = false`: the pass-through type
`REQUEST_STATE` (recognized by the validator) also yields `false`. -/
theorem C8_counterexample :
    validate_type "REQUEST_STATE" = true ∧
    "REQUEST_STATE" ≠ "TIMER_SYNC" ∧
    (apply_transition (default_state "sid")
        { type := "REQUEST_STATE", boxId := some 1 } "u").toOption.map
      (fun o => o.snapshot_required) = some false := by decide

/-- C8 (amended): applying `TIMER_SYNC` replaces `remaining` with the
command's value verbatim, changes nothing else, and reports
`snapshot_required = false`; among the validator-recognized command types the
outcome has `snapshot_required = false` exactly for `TIMER_SYNC` and the
pass-through read-only types `REQUEST_ACTIVE_COMPETITOR`, `REQUEST_STATE`
and `ACTIVE_CLIMBER` (which leave the state unchanged). -/
theorem C8_timer_sync (s : ContestState) (cmd : Cmd) (fresh : String)
    (out : CommandOutcome)
    (h : apply_transition s cmd fresh = .ok out) :
    (cmd.type = "TIMER_SYNC" →
      out.state = { s with remaining := cmd.remaining } ∧
      out.snapshot_required = false) ∧
    (validate_type cmd.type = true →
      (out.snapshot_required = false ↔
        cmd.type = "TIMER_SYNC" ∨ cmd.type = "REQUEST_ACTIVE_COMPETITOR" ∨
        cmd.type = "REQUEST_STATE" ∨ cmd.type = "ACTIVE_CLIMBER")) := by
  constructor
  · intro ht
    unfold apply_transition at h
    rw [ht] at h
    rw [if_neg (by decide), if_neg (by decide), if_neg (by decide),
        if_neg (by decide), if_neg (by decide), if_neg (by decide),
        if_pos rfl] at h
    simp only [Except.ok.injEq] at h
    subst h
    exact ⟨rfl, rfl⟩
  · intro hv
    have hmem : cmd.type ∈ allowed_types := by
      simpa [validate_type] using hv
    simp only [allowed_types, List.mem_cons, List.not_mem_nil, or_false] at hmem
    rcases hmem with ht | ht | ht | ht | ht | ht | ht | ht | ht | ht | ht | ht | ht
    -- START_TIMER
    · rw [apply_transition_start_timer s cmd fresh ht] at h
      simp only [Except.ok.injEq] at h
      subst h
      rw [ht]
      show (true = false) ↔ _
      decide
    -- STOP_TIMER
    · rw [apply_transition_stop_timer s cmd fresh ht] at h
      simp only [Except.ok.injEq] at h
      subst h
      rw [ht]
      show (true = false) ↔ _
      decide
    -- RESUME_TIMER
    · rw [apply_transition_resume_timer s cmd fresh ht] at h
      simp only [Except.ok.injEq] at h
      subst h
      rw [ht]
      show (true = false) ↔ _
      decide
    -- PROGRESS_UPDATE
    · rw [apply_transition_progress_update s cmd fresh ht] at h
      simp only [Except.ok.injEq] at h
      subst h
      rw [ht]
      show (true = false) ↔ _
      decide
    -- REQUEST_ACTIVE_COMPETITOR
    · rw [apply_transition_passthrough s cmd fresh (by rw [ht]; decide)] at h
      simp only [Except.ok.injEq] at h
      subst h
      rw [ht]
      show (false = false) ↔ _
      decide
    -- SUBMIT_SCORE
    · unfold apply_transition at h
      rw [ht, if_neg (by decide), if_neg (by decide), if_neg (by decide),
          if_neg (by decide), if_neg (by decide), if_neg (by decide),
          if_neg (by decide), if_neg (by decide), if_pos rfl] at h
      rcases hrs : resolveSubmitName cmd s.competitors with e | p
      · rw [hrs] at h
        simp at h
      · rw [hrs] at h
        obtain ⟨nm, fi⟩ := p
        simp only [Except.ok.injEq] at h
        subst h
        rw [ht]
        show (true = false) ↔ _
        decide
    -- INIT_ROUTE
    · unfold apply_transition at h
      rw [ht, if_pos rfl] at h
      simp only [Except.ok.injEq] at h
      subst h
      rw [ht]
      show (true = false) ↔ _
      decide
    -- REQUEST_STATE
    · rw [apply_transition_passthrough s cmd fresh (by rw [ht]; decide)] at h
      simp only [Except.ok.injEq] at h
      subst h
      rw [ht]
      show (false = false) ↔ _
      decide
    -- SET_TIME_CRITERION
    · rw [apply_transition_set_time_criterion s cmd fresh ht] at h
      simp only [Except.ok.injEq] at h
      subst h
      rw [ht]
      show (true = false) ↔ _
      decide
    -- REGISTER_TIME
    · rw [apply_transition_register_time s cmd fresh ht] at h
      simp only [Except.ok.injEq] at h
      subst h
      rw [ht]
      show (true = false) ↔ _
      decide
    -- TIMER_SYNC
    · rw [apply_transition_timer_sync s cmd fresh ht] at h
      simp only [Except.ok.injEq] at h
      subst h
      rw [ht]
      show (false = false) ↔ _
      decide
    -- ACTIVE_CLIMBER
    · rw [apply_transition_passthrough s cmd fresh (by rw [ht]; decide)] at h
      simp only [Except.ok.injEq] at h
      subst h
      rw [ht]
      show (false = false) ↔ _
      decide
    -- RESET_BOX
    · unfold apply_transition at h
      rw [ht, if_neg (by decide), if_neg (by decide), if_neg (by decide),
          if_neg (by decide), if_neg (by decide), if_neg (by decide),
          if_neg (by decide), if_neg (by decide), if_neg (by decide),
          if_neg (by decide), if_neg (by decide), if_neg (by decide),
          if_neg (by decide), if_pos rfl] at h
      simp only [Except.ok.injEq] at h
      subst h
      rw [ht]
      show (true = false) ↔ _
      decide

/-- C4: the claim (and spec §4.2) lists sixteen accepted command types, but
`ValidatedCmd.validate_type` accepts only thirteen: it rejects
`SET_TIME_TIEBREAK_DECISION`, `SET_PREV_ROUNDS_TIEBREAK_DECISION` and
`RESET_PARTIAL`, even though `contest._apply_transition` implements (and the
repository's tests exercise) those transitions — the validator contradicts
the state machine it guards. -/
theorem C4_validator_rejects_implemented_types :
    validate_type "RESET_PARTIAL" = false ∧
    validate_type "SET_TIME_TIEBREAK_DECISION" = false ∧
    validate_type "SET_PREV_ROUNDS_TIEBREAK_DECISION" = false ∧
    validate_cmd { type := "RESET_PARTIAL", boxId := some 1, unmarkAll := some true,
                   sessionId := some "sid", boxVersion := some 0 } = none ∧
    allowed_types.length = 13 ∧
    (allowed_types.all validate_type) = true ∧
    (apply_transition (default_state "sid")
        { type := "RESET_PARTIAL", boxId := some 1, unmarkAll := some true }
        "fresh-sid").toOption.map
      (fun o => (o.snapshot_required, o.state.initiated, o.state.sessionId)) =
      some (true, false, "fresh-sid") := by decide

/-- C10: `PROGRESS_UPDATE` with `delta = 0` — a value the validator accepts —
is treated as an absent delta (Python falsy `or`), defaulted to 1: the
resulting state equals that of `delta = 1`, `holdCount` becomes
`trunc(holdCount) + 1` (= `floor + 1` on the non-negative values) subject to
the clamps, and is changed whenever the clamp does not pin it at
`holdsCount`. -/
theorem C10_progress_delta_zero (s : ContestState) (cmd : Cmd) (fresh : String)
    (ht : cmd.type = "PROGRESS_UPDATE") (hd : cmd.delta = some 0) :
    (validate_cmd { type := "PROGRESS_UPDATE", boxId := some 1, delta := some 0,
                    sessionId := some "sid", boxVersion := some 0 }).isSome = true ∧
    (apply_transition s cmd fresh).map (fun o => o.state) =
      (apply_transition s { cmd with delta := some 1 } fresh).map (fun o => o.state) ∧
    (∀ out, apply_transition s cmd fresh = .ok out →
      out.state.holdCount =
        (let c : ℚ := ((pyTrunc s.holdCount + 1 : ℤ) : ℚ)
         let c := if c < 0 then 0 else c
         if 0 < s.holdsCount ∧ (s.holdsCount : ℚ) < c then (s.holdsCount : ℚ) else c) ∧
      (¬ (0 < s.holdsCount ∧ s.holdCount = (s.holdsCount : ℚ)) →
        out.state.holdCount ≠ s.holdCount)) ∧
    (0 ≤ s.holdCount → pyTrunc s.holdCount = s.holdCount.floor) := by
  have hkey : progress_new_count s (some (0 : ℚ)) =
      (let c : ℚ := ((pyTrunc s.holdCount + 1 : ℤ) : ℚ)
       let c := if c < 0 then 0 else c
       if 0 < s.holdsCount ∧ (s.holdsCount : ℚ) < c then (s.holdsCount : ℚ) else c) := by
    simp [progress_new_count]
  refine ⟨by decide, ?_, fun out hout => ⟨?_, ?_⟩, fun h0 => pyTrunc_eq_floor h0⟩
  · rw [apply_transition_progress_update s cmd fresh ht,
        apply_transition_progress_update s { cmd with delta := some 1 } fresh ht]
    simp only [Except.map_ok]
    have : progress_new_count s (some (0 : ℚ)) = progress_new_count s (some (1 : ℚ)) := by
      simp [progress_new_count]
    rw [show cmd.delta = some (0 : ℚ) from hd]
    rw [this]
    rfl
  · rw [apply_transition_progress_update s cmd fresh ht] at hout
    simp only [Except.ok.injEq] at hout
    subst hout
    rw [hd]
    exact hkey
  · intro hpin
    rw [apply_transition_progress_update s cmd fresh ht] at hout
    simp only [Except.ok.injEq] at hout
    subst hout
    rw [hd]
    exact progress_zero_changes s hpin

/-- C1: on a state with a non-empty competitors list, a successful
`SUBMIT_SCORE` marks the resolved target competitor `marked = true` (the
first list entry with that name); `currentClimber` advances to the next
unmarked competitor exactly when the resolved name equals the active climber
(advancing from an empty name is a no-op, so the equation below also covers
the empty case), and is left unchanged otherwise; `preparingClimber` is
recomputed as the next unmarked competitor after the (possibly new)
`currentClimber`, or `""` when none exists. -/
theorem C1_submit_score_queue (s : ContestState) (cmd : Cmd) (fresh : String)
    (out : CommandOutcome) (ht : cmd.type = "SUBMIT_SCORE")
    (hc : s.competitors ≠ [])
    (h : apply_transition s cmd fresh = .ok out) :
    ∃ rn fromIdx, resolveSubmitName cmd s.competitors = .ok (rn, fromIdx) ∧
      out.state.competitors = markFirst s.competitors rn ∧
      (∀ n, rn = some n → (∃ c ∈ s.competitors, c.nume = n) →
        ∃ c ∈ out.state.competitors, c.nume = n ∧ c.marked = true) ∧
      (∀ n, rn = some n → n = s.currentClimber →
        out.state.currentClimber =
          compute_preparing_climber (markFirst s.competitors rn) s.currentClimber) ∧
      (∀ n, rn = some n → n ≠ s.currentClimber →
        out.state.currentClimber = s.currentClimber) ∧
      (rn = none → out.state.currentClimber = s.currentClimber) ∧
      out.state.preparingClimber =
        compute_preparing_climber out.state.competitors out.state.currentClimber := by
  unfold apply_transition at h
  rw [ht, if_neg (by decide), if_neg (by decide), if_neg (by decide),
      if_neg (by decide), if_neg (by decide), if_neg (by decide),
      if_neg (by decide), if_neg (by decide), if_pos rfl] at h
  rcases hrs : resolveSubmitName cmd s.competitors with e | p
  · rw [hrs] at h
    simp at h
  · rw [hrs] at h
    obtain ⟨rn, fromIdx⟩ := p
    simp only [Except.ok.injEq] at h
    subst h
    rcases rn with _ | n
    · refine ⟨none, fromIdx, rfl, by simp [hc], ?_, ?_, ?_, ?_, by simp [hc]⟩
      · intro m hm; cases hm
      · intro m hm; cases hm
      · intro m hm; cases hm
      · intro _
        simp [hc]
    · refine ⟨some n, fromIdx, rfl, by simp [hc], ?_, ?_, ?_, ?_, by simp [hc]⟩
      · intro m hm hex
        obtain rfl : n = m := by cases hm; rfl
        have hmk := markFirstAux_marks s.competitors n hex
        simpa [hc, markFirst] using hmk
      · intro m hm heq
        obtain rfl : n = m := by cases hm; rfl
        by_cases hne : n = ""
        · have hcur : s.currentClimber = "" := heq ▸ hne
          simp only [hc, markFirst, hne, hcur]
          simp [compute_preparing_climber_empty]
        · simp [hc, markFirst, hne, heq]
          intro hcur
          exact absurd (heq.trans hcur) hne
      · intro m hm hne
        obtain rfl : n = m := by cases hm; rfl
        by_cases hne' : n = ""
        · simp [hc, hne']
        · have : (n == s.currentClimber) = false := by
            simp [hne]
          simp [hc, hne', this]
      · intro hn
        cases hn

/-- The shape of the invariant goal after a branch resets `holdCount` to 0. -/
theorem zeroHoldCase {m : ℤ} (h : 0 < m) : (0 : ℚ) ≤ 0 ∧ (0 : ℚ) ≤ (m : ℚ) :=
  ⟨le_refl 0, by exact_mod_cast le_of_lt h⟩

/-- Bounds of the `PROGRESS_UPDATE` clamping: the result is never negative
and never exceeds a positive `holdsCount`. -/
theorem clamp_bounds (A : ℚ) (m : ℤ) :
    0 ≤ (if 0 < m ∧ (m : ℚ) < (if A < 0 then 0 else A) then (m : ℚ)
         else (if A < 0 then 0 else A)) ∧
    (0 < m → (if 0 < m ∧ (m : ℚ) < (if A < 0 then 0 else A) then (m : ℚ)
              else (if A < 0 then 0 else A)) ≤ (m : ℚ)) := by
  by_cases hA : A < 0
  · simp only [if_pos hA]
    refine ⟨?_, fun hm => ?_⟩
    · split_ifs with h1
      · exact_mod_cast le_of_lt h1.1
      · exact le_refl 0
    · split_ifs with h1
      · exact le_refl _
      · exact_mod_cast le_of_lt hm
  · simp only [if_neg hA]
    refine ⟨?_, fun hm => ?_⟩
    · split_ifs with h1
      · exact_mod_cast le_of_lt h1.1
      · exact le_of_not_lt hA
    · split_ifs with h1
      · exact le_refl _
      · exact le_of_not_lt (not_and.mp h1 hm)

/-- `progress_new_count` lands in `[0, holdsCount]` when `holdsCount > 0`,
and is floored at `0` in any case. -/
theorem progress_new_count_bounds (s : ContestState) (d : Option ℚ) :
    0 ≤ progress_new_count s d ∧
    (0 < s.holdsCount → progress_new_count s d ≤ (s.holdsCount : ℚ)) := by
  unfold progress_new_count
  simp only []
  exact clamp_bounds _ s.holdsCount

/-- The C9 invariant: `0 ≤ holdCount ≤ holdsCount` whenever `holdsCount > 0`. -/
def holdInvariant (s : ContestState) : Prop :=
  0 < s.holdsCount → 0 ≤ s.holdCount ∧ s.holdCount ≤ (s.holdsCount : ℚ)

/-- States reachable from a fresh `default_state` by validator-accepted
commands (the command applied is the validator's normalized output; `fresh`
ranges over the oracle of generated session ids). -/
inductive ReachableV : ContestState → Prop where
  | init (sid : String) : ReachableV (default_state sid)
  | step {s : ContestState} {cmd cmd' : Cmd} {fresh : String} {out : CommandOutcome} :
      ReachableV s → validate_cmd cmd = some cmd' →
      apply_transition s cmd' fresh = .ok out → ReachableV out.state

/-- The invariant is preserved by every transition (validated or not). -/
theorem holdInvariant_preserved (s : ContestState) (cmd : Cmd) (fresh : String)
    (out : CommandOutcome) (hs : holdInvariant s)
    (h : apply_transition s cmd fresh = .ok out) : holdInvariant out.state := by
  by_cases hmem : cmd.type ∈ handled_types
  case neg =>
    rw [apply_transition_passthrough s cmd fresh hmem] at h
    simp only [Except.ok.injEq] at h
    subst h
    exact hs
  simp only [handled_types, List.mem_cons, List.not_mem_nil, or_false] at hmem
  rcases hmem with ht | ht | ht | ht | ht | ht | ht | ht | ht | ht | ht | ht | ht | ht
  -- INIT_ROUTE
  · unfold apply_transition at h
    rw [ht, if_pos rfl] at h
    simp only [Except.ok.injEq] at h
    subst h
    by_cases hr : pyOrInt cmd.routeIndex 1 = 1 <;>
      simp only [holdInvariant, hr, if_true, if_false, reduceIte] <;>
      exact fun hpos => zeroHoldCase hpos
  -- START_TIMER
  · rw [apply_transition_start_timer s cmd fresh ht] at h
    simp only [Except.ok.injEq] at h
    subst h
    exact hs
  -- STOP_TIMER
  · rw [apply_transition_stop_timer s cmd fresh ht] at h
    simp only [Except.ok.injEq] at h
    subst h
    exact hs
  -- RESUME_TIMER
  · rw [apply_transition_resume_timer s cmd fresh ht] at h
    simp only [Except.ok.injEq] at h
    subst h
    exact hs
  -- PROGRESS_UPDATE
  · rw [apply_transition_progress_update s cmd fresh ht] at h
    simp only [Except.ok.injEq] at h
    subst h
    intro hpos
    exact ⟨(progress_new_count_bounds s cmd.delta).1,
           (progress_new_count_bounds s cmd.delta).2 hpos⟩
  -- REGISTER_TIME
  · rw [apply_transition_register_time s cmd fresh ht] at h
    simp only [Except.ok.injEq] at h
    subst h
    exact hs
  -- TIMER_SYNC
  · rw [apply_transition_timer_sync s cmd fresh ht] at h
    simp only [Except.ok.injEq] at h
    subst h
    exact hs
  -- SET_TIMER_PRESET
  · unfold apply_transition at h
    rw [ht, if_neg (by decide), if_neg (by decide), if_neg (by decide),
        if_neg (by decide), if_neg (by decide), if_neg (by decide),
        if_neg (by decide), if_pos rfl] at h
    simp only [Except.ok.injEq] at h
    subst h
    exact hs
  -- SUBMIT_SCORE
  · unfold apply_transition at h
    rw [ht, if_neg (by decide), if_neg (by decide), if_neg (by decide),
        if_neg (by decide), if_neg (by decide), if_neg (by decide),
        if_neg (by decide), if_neg (by decide), if_pos rfl] at h
    rcases hrs : resolveSubmitName cmd s.competitors with e | p
    · rw [hrs] at h
      simp at h
    · rw [hrs] at h
      obtain ⟨rn, fromIdx⟩ := p
      simp only [Except.ok.injEq] at h
      subst h
      intro hpos
      exact zeroHoldCase hpos
  -- SET_TIME_CRITERION
  · rw [apply_transition_set_time_criterion s cmd fresh ht] at h
    simp only [Except.ok.injEq] at h
    subst h
    exact hs
  -- SET_TIME_TIEBREAK_DECISION
  · unfold apply_transition at h
    rw [ht, if_neg (by decide), if_neg (by decide), if_neg (by decide),
        if_neg (by decide), if_neg (by decide), if_neg (by decide),
        if_neg (by decide), if_neg (by decide), if_neg (by decide),
        if_neg (by decide), if_pos rfl] at h
    repeat' split at h
    all_goals
      first
        | exact Except.noConfusion h
        | (simp only [Except.ok.injEq] at h
           subst h
           exact hs)
  -- SET_PREV_ROUNDS_TIEBREAK_DECISION
  · unfold apply_transition at h
    rw [ht, if_neg (by decide), if_neg (by decide), if_neg (by decide),
        if_neg (by decide), if_neg (by decide), if_neg (by decide),
        if_neg (by decide), if_neg (by decide), if_neg (by decide),
        if_neg (by decide), if_neg (by decide), if_pos rfl] at h
    repeat' split at h
    all_goals
      first
        | exact Except.noConfusion h
        | (simp only [Except.ok.injEq] at h
           subst h
           exact hs)
  -- RESET_PARTIAL
  · unfold apply_transition at h
    rw [ht, if_neg (by decide), if_neg (by decide), if_neg (by decide),
        if_neg (by decide), if_neg (by decide), if_neg (by decide),
        if_neg (by decide), if_neg (by decide), if_neg (by decide),
        if_neg (by decide), if_neg (by decide), if_neg (by decide),
        if_pos rfl] at h
    simp only [Except.ok.injEq] at h
    subst h
    by_cases hu : cmd.unmarkAll.getD false = true
    · -- cascade: clearProgress is forced, holdCount ends at 0
      simp only [hu, if_true, reduceIte]
      intro hpos
      exact zeroHoldCase hpos
    · simp only [Bool.not_eq_true] at hu
      simp only [hu, if_false, Bool.false_eq_true, reduceIte]
      by_cases hcp : cmd.clearProgress.getD false = true
      · simp only [hcp, if_true, reduceIte]
        by_cases hrt : cmd.resetTimer.getD false = true <;>
          simp only [hrt, if_true, if_false, Bool.false_eq_true, reduceIte] <;>
          (intro hpos; exact zeroHoldCase hpos)
      · simp only [Bool.not_eq_true] at hcp
        simp only [hcp, Bool.false_eq_true, reduceIte]
        by_cases hrt : cmd.resetTimer.getD false = true <;>
          simp only [hrt, if_true, Bool.false_eq_true, reduceIte] <;>
          exact hs
  -- RESET_BOX
  · unfold apply_transition at h
    rw [ht, if_neg (by decide), if_neg (by decide), if_neg (by decide),
        if_neg (by decide), if_neg (by decide), if_neg (by decide),
        if_neg (by decide), if_neg (by decide), if_neg (by decide),
        if_neg (by decide), if_neg (by decide), if_neg (by decide),
        if_neg (by decide), if_pos rfl] at h
    simp only [Except.ok.injEq] at h
    subst h
    intro hpos
    exact zeroHoldCase hpos

/-- C9: every state reachable from `default_state` through validator-accepted
commands satisfies `0 ≤ holdCount ≤ holdsCount` whenever `holdsCount > 0`;
and `PROGRESS_UPDATE` clamps its result into `[0, holdsCount]` when
`holdsCount > 0` and floors it at `0` otherwise. -/
theorem C9_hold_count_invariant :
    (∀ s : ContestState, ReachableV s →
      0 < s.holdsCount → 0 ≤ s.holdCount ∧ s.holdCount ≤ (s.holdsCount : ℚ)) ∧
    (∀ (s : ContestState) (cmd : Cmd) (fresh : String) (out : CommandOutcome),
      cmd.type = "PROGRESS_UPDATE" → apply_transition s cmd fresh = .ok out →
      out.state.holdsCount = s.holdsCount ∧
      0 ≤ out.state.holdCount ∧
      (0 < s.holdsCount → out.state.holdCount ≤ (s.holdsCount : ℚ))) := by
  constructor
  · intro s hreach
    induction hreach with
    | init sid => intro hpos; simp [default_state] at hpos
    | step hr hv happ ih => exact holdInvariant_preserved _ _ _ _ ih happ
  · intro s cmd fresh out ht h
    rw [apply_transition_progress_update s cmd fresh ht] at h
    simp only [Except.ok.injEq] at h
    subst h
    exact ⟨rfl, (progress_new_count_bounds s cmd.delta).1,
           (progress_new_count_bounds s cmd.delta).2⟩

instance {ε α : Type} [DecidableEq ε] [DecidableEq α] : DecidableEq (Except ε α) :=
  fun a b =>
    match a, b with
    | .ok x, .ok y =>
        if h : x = y then .isTrue (by rw [h])
        else .isFalse (fun he => h (Except.ok.inj he))
    | .error x, .error y =>
        if h : x = y then .isTrue (by rw [h])
        else .isFalse (fun he => h (Except.error.inj he))
    | .ok _, .error _ => .isFalse (fun he => Except.noConfusion he)
    | .error _, .ok _ => .isFalse (fun he => Except.noConfusion he)

/-! ### Ranking engine lemmas -/

theorem int_compare_gt {x y : ℤ} (h : y < x) : compare x y = .gt := by
  have he : compare x y = compareOfLessAndEq x y := rfl
  rw [he]
  simp [compareOfLessAndEq]
  omega

theorem int_compare_self (x : ℤ) : compare x x = .eq := by
  have he : compare x x = compareOfLessAndEq x x := rfl
  rw [he]
  simp [compareOfLessAndEq]

theorem int_compare_eq {x y : ℤ} (h : compare x y = .eq) : x = y := by
  have he : compare x y = compareOfLessAndEq x y := rfl
  rw [he] at h
  simp [compareOfLessAndEq] at h
  exact h.2

theorem str_compare_eq {a b : String} (h : compare a b = .eq) : a = b := by
  simp [compare, compareOfLessAndEq] at h
  exact h.2

theorem ordering_then_eq {a b : Ordering} (h : a.then b = .eq) :
    a = .eq ∧ b = .eq := by
  cases a <;> simp [Ordering.then] at h <;> simp [h]

theorem keyLt_irrefl (k : ℤ × ℤ × ℤ) : ¬ keyLt k k := by
  unfold keyLt
  omega

/-- The base comparator refines the performance order: a `≤`-related pair is
never strictly dominated left-to-right. -/
theorem itemRel_keyGE {a b : RItem} (h : itemRel a b) :
    ¬ keyLt (ikey a) (ikey b) := by
  intro hlt
  apply h
  unfold ikey at hlt
  unfold itemCmp compareLex compareOn
  rcases hlt with h1 | ⟨h1, h2 | ⟨h2, h3⟩⟩
  · have c1 : compare (-(result_sort_key a.result).1)
        (-(result_sort_key b.result).1) = .gt := int_compare_gt (by omega)
    rw [c1]
    rfl
  · have c1 : compare (-(result_sort_key a.result).1)
        (-(result_sort_key b.result).1) = .eq := by
      rw [show -(result_sort_key a.result).1 = -(result_sort_key b.result).1
        by omega]
      exact int_compare_self _
    have c2 : compare (-(result_sort_key a.result).2.1)
        (-(result_sort_key b.result).2.1) = .gt := int_compare_gt (by omega)
    rw [c1, c2]
    rfl
  · have c1 : compare (-(result_sort_key a.result).1)
        (-(result_sort_key b.result).1) = .eq := by
      rw [show -(result_sort_key a.result).1 = -(result_sort_key b.result).1
        by omega]
      exact int_compare_self _
    have c2 : compare (-(result_sort_key a.result).2.1)
        (-(result_sort_key b.result).2.1) = .eq := by
      rw [show -(result_sort_key a.result).2.1 = -(result_sort_key b.result).2.1
        by omega]
      exact int_compare_self _
    have c3 : compare (-(result_sort_key a.result).2.2)
        (-(result_sort_key b.result).2.2) = .gt := int_compare_gt (by omega)
    rw [c1, c2, c3]
    rfl

theorem groupRunsAux_flatten {α : Type} (eq : α → α → Bool) :
    ∀ (fuel : ℕ) (l : List α), l.length ≤ fuel →
      (groupRunsAux eq fuel l).flatten = l := by
  intro fuel
  induction fuel with
  | zero =>
      intro l hl
      rw [List.length_eq_zero.mp (Nat.le_zero.mp hl)]
      rfl
  | succ n ih =>
      intro l hl
      cases l with
      | nil => rfl
      | cons x xs =>
          show ((x :: xs.takeWhile (fun y => eq y x)) ::
            groupRunsAux eq n (xs.dropWhile (fun y => eq y x))).flatten = x :: xs
          rw [List.flatten_cons,
            ih _ (le_trans ((List.dropWhile_sublist _).length_le)
              (Nat.le_of_succ_le_succ hl)),
            List.cons_append, List.takeWhile_append_dropWhile]

theorem groupRuns_flatten {α : Type} (eq : α → α → Bool) (l : List α) :
    (groupRuns eq l).flatten = l :=
  groupRunsAux_flatten eq l.length l le_rfl

theorem mem_of_mem_groupRuns {α : Type} {eq : α → α → Bool} {l g : List α}
    {a : α} (hg : g ∈ groupRuns eq l) (ha : a ∈ g) : a ∈ l := by
  rw [← groupRuns_flatten eq l]
  exact List.mem_flatten.mpr ⟨g, hg, ha⟩

theorem groupRunsAux_head {α : Type} {eq : α → α → Bool} :
    ∀ {fuel : ℕ} {l g : List α}, g ∈ groupRunsAux eq fuel l →
      ∃ hd, ∀ a ∈ g, a = hd ∨ eq a hd = true := by
  intro fuel
  induction fuel with
  | zero => intro l g hg; simp [groupRunsAux] at hg
  | succ n ih =>
      intro l g hg
      cases l with
      | nil => simp [groupRunsAux] at hg
      | cons x xs =>
          rcases List.mem_cons.mp hg with h | h
          · subst h
            refine ⟨x, ?_⟩
            intro a ha
            rcases List.mem_cons.mp ha with h | h
            · exact Or.inl h
            · have := List.mem_takeWhile_imp h
              exact Or.inr this
          · exact ih h

theorem groupRuns_key_uniform {l g : List RItem}
    (hg : g ∈ groupRuns itemKeyEq l) :
    ∀ a ∈ g, ∀ b ∈ g, ikey a = ikey b := by
  obtain ⟨hd, hhd⟩ := groupRunsAux_head hg
  have key_of : ∀ c ∈ g, ikey c = ikey hd := by
    intro c hc
    rcases hhd c hc with h | h
    · rw [h]
    · exact eq_of_beq h
  intro a ha b hb
  rw [key_of a ha, key_of b hb]

theorem groupRuns_rowKey_uniform {l g : List RankingRow}
    (hg : g ∈ groupRuns rowPerfEq l) :
    ∀ a ∈ g, ∀ b ∈ g, rowPerfKey a = rowPerfKey b := by
  obtain ⟨hd, hhd⟩ := groupRunsAux_head hg
  have key_of : ∀ c ∈ g, rowPerfKey c = rowPerfKey hd := by
    intro c hc
    rcases hhd c hc with h | h
    · rw [h]
    · exact eq_of_beq h
  intro a ha b hb
  rw [key_of a ha, key_of b hb]

theorem pairwise_of_forall_mem_pairs {α : Type} {R : α → α → Prop} :
    ∀ {l : List α}, (∀ a ∈ l, ∀ b ∈ l, R a b) → l.Pairwise R := by
  intro l
  induction l with
  | nil => intro _; exact List.Pairwise.nil
  | cons x xs ih =>
      intro h
      constructor
      · intro b hb
        exact h x (List.mem_cons_self x xs) b (List.mem_cons_of_mem x hb)
      · exact ih (fun a ha b hb =>
          h a (List.mem_cons_of_mem x ha) b (List.mem_cons_of_mem x hb))

theorem itemsFrom_refl (l : List RItem) : ItemsFrom l l :=
  fun it hit => ⟨it, hit, rfl, rfl⟩

theorem itemsFrom_of_subset {c m : List RItem} (h : ∀ it ∈ c, it ∈ m) :
    ItemsFrom c m :=
  fun it hit => ⟨it, h it hit, rfl, rfl⟩

theorem itemsFrom_trans {a b c : List RItem} (h1 : ItemsFrom a b)
    (h2 : ItemsFrom b c) : ItemsFrom a c := by
  intro it hit
  obtain ⟨m, hm, ha, hr⟩ := h1 it hit
  obtain ⟨m2, hm2, ha2, hr2⟩ := h2 m hm
  exact ⟨m2, hm2, ha.trans ha2, hr.trans hr2⟩

theorem itemsFrom_map_tbtime {c : List RItem} :
    ItemsFrom (c.map (fun it => { it with tb_time := true })) c := by
  intro it hit
  obtain ⟨m, hm, he⟩ := List.mem_map.mp hit
  exact ⟨m, hm, by rw [← he], by rw [← he]⟩

theorem itemsFrom_map_tbprev {c : List RItem} :
    ItemsFrom (c.map (fun it => { it with tb_prev := true })) c := by
  intro it hit
  obtain ⟨m, hm, he⟩ := List.mem_map.mp hit
  exact ⟨m, hm, by rw [← he], by rw [← he]⟩

theorem itemsFrom_insertionSort (r : RItem → RItem → Prop) [DecidableRel r]
    (l : List RItem) : ItemsFrom (List.insertionSort r l) l :=
  itemsFrom_of_subset (fun it hit => (List.perm_insertionSort r l).mem_iff.mp hit)

theorem partition_by_time_items {members : List RItem} {p : List RItem}
    (hp : p ∈ partition_by_time members) : ItemsFrom p members := by
  apply itemsFrom_of_subset
  intro it hit
  unfold partition_by_time at hp
  exact (List.perm_insertionSort timePartRel members).mem_iff.mp
    (mem_of_mem_groupRuns hp hit)

theorem groupedAdd_mem {acc : List (ℤ × List RItem)} {k0 : ℤ} {it0 : RItem}
    {pr : ℤ × List RItem} (h : pr ∈ groupedAdd acc k0 it0) {x : RItem}
    (hx : x ∈ pr.2) : (∃ q ∈ acc, x ∈ q.2) ∨ x = it0 := by
  unfold groupedAdd at h
  split at h
  · obtain ⟨q, hq, he⟩ := List.mem_map.mp h
    by_cases hk : (q.1 == k0) = true
    · rw [if_pos hk] at he
      rw [← he] at hx
      rcases List.mem_append.mp hx with h1 | h1
      · exact Or.inl ⟨q, hq, h1⟩
      · exact Or.inr (List.mem_singleton.mp h1)
    · rw [if_neg hk] at he
      rw [← he] at hx
      exact Or.inl ⟨q, hq, hx⟩
  · rcases List.mem_append.mp h with h1 | h1
    · exact Or.inl ⟨pr, h1, hx⟩
    · rw [List.mem_singleton.mp h1] at hx
      exact Or.inr (List.mem_singleton.mp hx)

theorem partitionFold_mem {base : List RItem} {ranks : List (String × ℤ)} :
    ∀ (members : List RItem) (acc : List (ℤ × List RItem)),
      (∀ m ∈ members, m ∈ base) →
      (∀ q ∈ acc, ∀ x ∈ q.2, x ∈ base) →
      ∀ q ∈ members.foldl (fun a it =>
          groupedAdd a ((dictGet ranks it.athlete.id).getD 0) it) acc,
        ∀ x ∈ q.2, x ∈ base := by
  intro members
  induction members with
  | nil => intro acc _ hacc q hq x hx; exact hacc q hq x hx
  | cons m ms ih =>
      intro acc hmem hacc q hq x hx
      refine ih (groupedAdd acc ((dictGet ranks m.athlete.id).getD 0) m)
        (fun z hz => hmem z (List.mem_cons_of_mem m hz)) ?_ q hq x hx
      intro q2 hq2 x2 hx2
      rcases groupedAdd_mem hq2 hx2 with ⟨q3, hq3, hx3⟩ | h
      · exact hacc q3 hq3 x2 hx3
      · rw [h]
        exact hmem m (List.mem_cons_self m ms)

theorem partition_by_prev_ranks_items {members : List RItem}
    {ranks : List (String × ℤ)} {p : List RItem}
    (hp : p ∈ partition_by_prev_ranks members ranks) : ItemsFrom p members := by
  apply itemsFrom_of_subset
  intro it hit
  unfold partition_by_prev_ranks at hp
  obtain ⟨k, _, he⟩ := List.mem_map.mp hp
  rw [← he] at hit
  have hit2 := (List.perm_insertionSort memberRel _).mem_iff.mp hit
  cases hf : (members.foldl (fun acc it =>
      groupedAdd acc ((dictGet ranks it.athlete.id).getD 0) it) []).find?
      (fun p => p.1 == k) with
  | none => rw [hf] at hit2; exact absurd hit2 (List.not_mem_nil it)
  | some q =>
      rw [hf] at hit2
      exact partitionFold_mem members [] (fun m hm => hm) (by simp) q
        (List.mem_of_find?_eq_some hf) it hit2

theorem resolve_time_stage_items {members : List RItem} {rs pp : ℕ}
    {rn : String} {res : Option TieBreakResolver} {c : List RItem}
    (hc : c ∈ (resolve_time_stage members rs pp rn res).1) :
    ItemsFrom c members := by
  unfold resolve_time_stage at hc
  simp only [] at hc
  split at hc
  · rw [List.mem_singleton.mp hc]
    exact itemsFrom_refl members
  · split at hc
    · rw [List.mem_singleton.mp hc]
      exact itemsFrom_refl members
    · rw [List.mem_singleton.mp hc]
      exact itemsFrom_refl members
  · split at hc
    · rw [List.mem_singleton.mp hc]
      exact itemsFrom_refl members
    · obtain ⟨p, hp, he⟩ := List.mem_map.mp hc
      rw [← he]
      exact itemsFrom_trans itemsFrom_map_tbtime (partition_by_time_items hp)

theorem processPrevParts_items {rs pp : ℕ} {rn : String}
    {res : Option TieBreakResolver} :
    ∀ (parts : List (List RItem)) (idx consumed : ℕ) {c : List RItem},
      c ∈ (processPrevParts rs pp rn res parts idx consumed).1 →
      ∃ p ∈ parts, ItemsFrom c p := by
  intro parts
  induction parts with
  | nil => intro idx consumed c hc; simp [processPrevParts] at hc
  | cons part rest ih =>
      intro idx consumed c hc
      rw [processPrevParts] at hc
      simp only [] at hc
      split at hc
      · rcases List.mem_cons.mp hc with h | h
        · refine ⟨part, List.mem_cons_self part rest, ?_⟩
          subst h
          by_cases hidx : idx = 0
          · rw [if_pos hidx]
            exact itemsFrom_map_tbprev
          · rw [if_neg hidx]
            exact itemsFrom_refl part
        · obtain ⟨p, hp, hi⟩ := ih _ _ h
          exact ⟨p, List.mem_cons_of_mem part hp, hi⟩
      · rcases List.mem_append.mp hc with h | h
        · exact ⟨part, List.mem_cons_self part rest, resolve_time_stage_items h⟩
        · obtain ⟨p, hp, hi⟩ := ih _ _ h
          exact ⟨p, List.mem_cons_of_mem part hp, hi⟩

theorem resolve_group_items {members : List RItem} {rs pp : ℕ} {rn : String}
    {res : Option TieBreakResolver} {c : List RItem}
    (hc : c ∈ (resolve_group members rs pp rn res).1) :
    ItemsFrom c members := by
  unfold resolve_group at hc
  simp only [] at hc
  split at hc
  · rw [List.mem_singleton.mp hc]
    exact itemsFrom_refl members
  · split at hc
    · rw [List.mem_singleton.mp hc]
      exact itemsFrom_refl members
    · exact resolve_time_stage_items hc
    · split at hc
      · rw [List.mem_singleton.mp hc]
        exact itemsFrom_refl members
      · split at hc
        · rw [List.mem_singleton.mp hc]
          exact itemsFrom_refl members
        · split at hc
          · rcases List.mem_append.mp hc with h | h
            · obtain ⟨p, hp, hi⟩ := processPrevParts_items _ _ _ h
              exact itemsFrom_trans hi (itemsFrom_trans
                (partition_by_prev_ranks_items hp)
                (itemsFrom_of_subset (fun it hit => List.mem_of_mem_filter hit)))
            · rw [List.mem_singleton.mp h]
              exact itemsFrom_trans
                (itemsFrom_insertionSort memberRel _)
                (itemsFrom_of_subset (fun it hit => List.mem_of_mem_filter hit))
          · obtain ⟨p, hp, hi⟩ := processPrevParts_items _ _ _ hc
            exact itemsFrom_trans hi (itemsFrom_trans
              (partition_by_prev_ranks_items hp)
              (itemsFrom_of_subset (fun it hit => List.mem_of_mem_filter hit)))

theorem processGroups_chunks_items {pp : ℕ} {rn : String}
    {res : Option TieBreakResolver} :
    ∀ (groups : List (List RItem)) (pos : ℕ) {c : List RItem},
      c ∈ (processGroups pp rn res groups pos).1 →
      ∃ g ∈ groups, ItemsFrom c g := by
  intro groups
  induction groups with
  | nil => intro pos c hc; simp [processGroups] at hc
  | cons g rest ih =>
      intro pos c hc
      rw [processGroups] at hc
      simp only [] at hc
      split at hc
      · rcases List.mem_cons.mp hc with h | h
        · rw [h]
          exact ⟨g, List.mem_cons_self g rest, itemsFrom_refl g⟩
        · obtain ⟨g2, hg2, hi⟩ := ih _ h
          exact ⟨g2, List.mem_cons_of_mem g hg2, hi⟩
      · rcases List.mem_append.mp hc with h | h
        · exact ⟨g, List.mem_cons_self g rest, resolve_group_items h⟩
        · obtain ⟨g2, hg2, hi⟩ := ih _ h
          exact ⟨g2, List.mem_cons_of_mem g hg2, hi⟩

theorem processGroups_pairwise {pp : ℕ} {rn : String}
    {res : Option TieBreakResolver} :
    ∀ (groups : List (List RItem)) (pos : ℕ),
      (∀ g ∈ groups, ∀ a ∈ g, ∀ b ∈ g, ikey a = ikey b) →
      groups.Pairwise (fun g h => ∀ a ∈ g, ∀ b ∈ h, ¬ keyLt (ikey a) (ikey b)) →
      ((processGroups pp rn res groups pos).1).Pairwise chunkGE := by
  intro groups
  induction groups with
  | nil => intro pos _ _; simp [processGroups]
  | cons g rest ih =>
      intro pos huni hpair
      obtain ⟨hg, hrest⟩ := List.pairwise_cons.mp hpair
      have huni_rest : ∀ g2 ∈ rest, ∀ a ∈ g2, ∀ b ∈ g2, ikey a = ikey b :=
        fun g2 h => huni g2 (List.mem_cons_of_mem g h)
      have cross : ∀ (pos2 : ℕ) (c d : List RItem), ItemsFrom c g →
          d ∈ (processGroups pp rn res rest pos2).1 → chunkGE c d := by
        intro pos2 c d hic hd a ha b hb
        obtain ⟨g2, hg2, hid⟩ := processGroups_chunks_items rest pos2 hd
        obtain ⟨m, hm, _, hres⟩ := hic a ha
        obtain ⟨m2, hm2, _, hres2⟩ := hid b hb
        have ea : ikey a = ikey m := by unfold ikey; rw [hres]
        have eb : ikey b = ikey m2 := by unfold ikey; rw [hres2]
        rw [ea, eb]
        exact hg g2 hg2 m hm m2 hm2
      rw [processGroups]
      simp only []
      split
      · refine List.pairwise_cons.mpr ⟨?_, ih _ huni_rest hrest⟩
        intro d hd
        exact cross _ g d (itemsFrom_refl g) hd
      · apply List.pairwise_append.mpr
        refine ⟨?_, ih _ huni_rest hrest, ?_⟩
        · apply pairwise_of_forall_mem_pairs
          intro c hcg d hdg a ha b hb
          obtain ⟨m, hm, _, hres⟩ := resolve_group_items hcg a ha
          obtain ⟨m2, hm2, _, hres2⟩ := resolve_group_items hdg b hb
          have ea : ikey a = ikey m := by unfold ikey; rw [hres]
          have eb : ikey b = ikey m2 := by unfold ikey; rw [hres2]
          rw [ea, eb, huni g (List.mem_cons_self g rest) m hm m2 hm2]
          exact keyLt_irrefl _
        · intro c hcg d hdrec
          exact cross _ c d (resolve_group_items hcg) hdrec

theorem buildRows_rank_ge {pp : ℕ} :
    ∀ (chunks : List (List RItem)) (pos : ℕ) {x : RankingRow},
      x ∈ (buildRows pp chunks pos).1 → pos ≤ x.rank := by
  intro chunks
  induction chunks with
  | nil => intro pos x hx; simp [buildRows] at hx
  | cons c rest ih =>
      intro pos x hx
      rw [buildRows] at hx
      simp only [] at hx
      rcases List.mem_append.mp hx with h | h
      · obtain ⟨it, _, he⟩ := List.mem_map.mp h
        rw [← he]
        exact le_refl pos
      · exact le_trans (Nat.le_add_right pos c.length) (ih _ h)

theorem buildRows_mem {pp : ℕ} :
    ∀ (chunks : List (List RItem)) (pos : ℕ) {x : RankingRow},
      x ∈ (buildRows pp chunks pos).1 →
      ∃ c ∈ chunks, ∃ it ∈ c, ∃ rk, to_ranking_row it rk = x := by
  intro chunks
  induction chunks with
  | nil => intro pos x hx; simp [buildRows] at hx
  | cons c rest ih =>
      intro pos x hx
      rw [buildRows] at hx
      simp only [] at hx
      rcases List.mem_append.mp hx with h | h
      · obtain ⟨it, hit, he⟩ := List.mem_map.mp h
        exact ⟨c, List.mem_cons_self c rest,
          it, (List.perm_insertionSort memberRel c).mem_iff.mp hit, pos, he⟩
      · obtain ⟨c2, hc2, it, hit, rk, he⟩ := ih _ h
        exact ⟨c2, List.mem_cons_of_mem c hc2, it, hit, rk, he⟩

theorem rowPerfKey_to_ranking_row (it : RItem) (rk : ℕ) :
    rowPerfKey (to_ranking_row it rk) = ikey it := rfl

theorem buildRows_mono {pp : ℕ} :
    ∀ (chunks : List (List RItem)) (pos : ℕ),
      chunks.Pairwise chunkGE →
      ∀ x ∈ (buildRows pp chunks pos).1, ∀ y ∈ (buildRows pp chunks pos).1,
        keyLt (rowPerfKey y) (rowPerfKey x) → x.rank ≤ y.rank := by
  intro chunks
  induction chunks with
  | nil => intro pos _ x hx; simp [buildRows] at hx
  | cons c rest ih =>
      intro pos hpair x hx y hy hk
      obtain ⟨hc, hrest⟩ := List.pairwise_cons.mp hpair
      rw [buildRows] at hx hy
      simp only [] at hx hy
      rcases List.mem_append.mp hx with hx1 | hx2
      · obtain ⟨itx, _, hex⟩ := List.mem_map.mp hx1
        have hxrank : x.rank = pos := by rw [← hex]; rfl
        rcases List.mem_append.mp hy with hy1 | hy2
        · obtain ⟨ity, _, hey⟩ := List.mem_map.mp hy1
          have hyrank : y.rank = pos := by rw [← hey]; rfl
          rw [hxrank, hyrank]
        · have := buildRows_rank_ge rest (pos + c.length) hy2
          rw [hxrank]
          omega
      · rcases List.mem_append.mp hy with hy1 | hy2
        · obtain ⟨ity, hity, hey⟩ := List.mem_map.mp hy1
          have hity2 : ity ∈ c :=
            (List.perm_insertionSort memberRel c).mem_iff.mp hity
          obtain ⟨cx, hcx, itx, hitx, rk, hex⟩ := buildRows_mem rest _ hx2
          have hkx : rowPerfKey x = ikey itx := by
            rw [← hex]
            rfl
          have hky : rowPerfKey y = ikey ity := by
            rw [← hey]
            rfl
          rw [hky, hkx] at hk
          exact absurd hk (hc cx hcx ity hity2 itx hitx)
        · exact ih _ hrest x hx2 y hy2 hk

theorem foldl_min_spec (a : ℕ) (l : List ℕ) :
    (l.foldl min a = a ∨ l.foldl min a ∈ l) ∧ l.foldl min a ≤ a ∧
      ∀ x ∈ l, l.foldl min a ≤ x := by
  induction l generalizing a with
  | nil => exact ⟨Or.inl rfl, le_refl a, by simp⟩
  | cons b t ih =>
      obtain ⟨hmem, hle, hall⟩ := ih (min a b)
      refine ⟨?_, ?_, ?_⟩
      · rcases hmem with h | h
        · rcases min_choice a b with h2 | h2
          · exact Or.inl (h.trans h2)
          · refine Or.inr ?_
            show List.foldl min (min a b) t ∈ b :: t
            rw [h, h2]
            exact List.mem_cons_self b t
        · exact Or.inr (List.mem_cons_of_mem b h)
      · exact le_trans hle (min_le_left a b)
      · intro x hx
        rcases List.mem_cons.mp hx with h | h
        · rw [h]
          exact le_trans hle (min_le_right a b)
        · exact hall x h

theorem minRankOf_spec (r : RankingRow) (rest : List RankingRow) :
    (∃ x ∈ r :: rest, x.rank = minRankOf (r :: rest)) ∧
      ∀ x ∈ r :: rest, minRankOf (r :: rest) ≤ x.rank := by
  have he : minRankOf (r :: rest) =
      (rest.map (fun x => x.rank)).foldl min r.rank := by
    unfold minRankOf
    rw [List.foldl_map]
  obtain ⟨hmem, hle, hall⟩ := foldl_min_spec r.rank (rest.map (fun x => x.rank))
  rw [he]
  constructor
  · rcases hmem with h1 | h1
    · exact ⟨r, List.mem_cons_self r rest, h1.symm⟩
    · obtain ⟨x, hx, hxe⟩ := List.mem_map.mp h1
      exact ⟨x, List.mem_cons_of_mem r hx, hxe⟩
  · intro x hx
    rcases List.mem_cons.mp hx with h1 | h1
    · rw [h1]
      exact hle
    · exact hall x.rank (List.mem_map_of_mem _ h1)

theorem dictGet_cons {α : Type} (p : String × α) (t : List (String × α))
    (k : String) :
    dictGet (p :: t) k = if p.1 == k then some p.2 else dictGet t k := by
  by_cases h : (p.1 == k) = true
  · rw [if_pos h]
    have hf : List.find? (fun q => q.1 == k) (p :: t) = some p :=
      List.find?_cons_of_pos t h
    unfold dictGet
    rw [hf]
    rfl
  · rw [if_neg h]
    have hf : List.find? (fun q => q.1 == k) (p :: t) =
        List.find? (fun q => q.1 == k) t :=
      List.find?_cons_of_neg t (by simpa using h)
    unfold dictGet
    rw [hf]

theorem dictGet_map_update {α : Type} {k k' : String} {v w : α} :
    ∀ (l : List (String × α)),
      dictGet (l.map (fun p => if p.1 == k then (k, v) else p)) k' = some w →
      (k' = k ∧ w = v) ∨ dictGet l k' = some w := by
  intro l
  induction l with
  | nil => intro h; simp [dictGet] at h
  | cons p t ih =>
      intro h
      rw [List.map_cons] at h
      by_cases hk : (p.1 == k) = true
      · rw [if_pos hk] at h
        rw [dictGet_cons] at h
        by_cases hk2 : (((k, v) : String × α).1 == k') = true
        · rw [if_pos hk2] at h
          exact Or.inl ⟨(eq_of_beq hk2).symm, (Option.some.inj h).symm⟩
        · rw [if_neg hk2] at h
          rcases ih h with h1 | h1
          · exact Or.inl h1
          · right
            rw [dictGet_cons, if_neg ?_]
            · exact h1
            · have : p.1 = k := eq_of_beq hk
              rw [this]
              exact hk2
      · rw [if_neg hk] at h
        rw [dictGet_cons] at h
        by_cases hk2 : (p.1 == k') = true
        · rw [if_pos hk2] at h
          right
          rw [dictGet_cons, if_pos hk2]
          exact h
        · rw [if_neg hk2] at h
          rcases ih h with h1 | h1
          · exact Or.inl h1
          · right
            rw [dictGet_cons, if_neg hk2]
            exact h1

theorem dictGet_append_single {α : Type} {k k' : String} {v w : α} :
    ∀ (l : List (String × α)),
      dictGet (l ++ [(k, v)]) k' = some w →
      (k' = k ∧ w = v) ∨ dictGet l k' = some w := by
  intro l
  induction l with
  | nil =>
      intro h
      rw [List.nil_append, dictGet_cons] at h
      by_cases hk2 : (((k, v) : String × α).1 == k') = true
      · rw [if_pos hk2] at h
        exact Or.inl ⟨(eq_of_beq hk2).symm, (Option.some.inj h).symm⟩
      · rw [if_neg hk2] at h
        simp [dictGet] at h
  | cons p t ih =>
      intro h
      rw [List.cons_append, dictGet_cons] at h
      by_cases hk2 : (p.1 == k') = true
      · rw [if_pos hk2] at h
        right
        rw [dictGet_cons, if_pos hk2]
        exact h
      · rw [if_neg hk2] at h
        rcases ih h with h1 | h1
        · exact Or.inl h1
        · right
          rw [dictGet_cons, if_neg hk2]
          exact h1

theorem dictGet_dictSet_cases {α : Type} {l : List (String × α)}
    {k k' : String} {v w : α}
    (h : dictGet (dictSet l k v) k' = some w) :
    (k' = k ∧ w = v) ∨ dictGet l k' = some w := by
  unfold dictSet at h
  split at h
  · exact dictGet_map_update l h
  · exact dictGet_append_single l h

theorem dictSet_fold_cases {mn : ℕ} :
    ∀ (sub : List RankingRow) (acc : List (String × ℕ)) {aid : String} {v : ℕ},
      dictGet (sub.foldl (fun a r => dictSet a r.athlete_id mn) acc) aid
        = some v →
      (∃ r ∈ sub, r.athlete_id = aid ∧ v = mn) ∨ dictGet acc aid = some v := by
  intro sub
  induction sub with
  | nil => intro acc aid v h; exact Or.inr h
  | cons r t ih =>
      intro acc aid v h
      rcases ih _ h with ⟨r2, hr2, hi⟩ | h1
      · exact Or.inl ⟨r2, List.mem_cons_of_mem r hr2, hi⟩
      · rcases dictGet_dictSet_cases h1 with ⟨he1, he2⟩ | h2
        · exact Or.inl ⟨r, List.mem_cons_self r t, he1.symm, he2⟩
        · exact Or.inr h2

theorem collapseStep_cases {podium : ℕ} {acc : List (String × ℕ)}
    {g : List RankingRow} {aid : String} {v : ℕ}
    (h : dictGet (collapseStep podium acc g) aid = some v) :
    (∃ r1 ∈ g, ∃ r2 ∈ g, r1.athlete_id = aid ∧ r2.rank = v) ∨
      dictGet acc aid = some v := by
  unfold collapseStep at h
  simp only [] at h
  split at h
  · split at h
    · rcases dictSet_fold_cases _ _ h with ⟨r1, hr1, hid, hv⟩ | h2
      · cases g with
        | nil => simp at hr1
        | cons r rest =>
            obtain ⟨⟨r2, hr2, hre⟩, _⟩ := minRankOf_spec r rest
            exact Or.inl ⟨r1, hr1, r2, hr2, hid, by rw [hre, ← hv]⟩
      · exact Or.inr h2
    · split at h
      · split at h
        · rcases dictSet_fold_cases _ _ h with ⟨r1, hr1, hid, hv⟩ | h2
          · cases htl : g.filter (fun r => decide (podium < r.rank)) with
            | nil => rw [htl] at hr1; simp at hr1
            | cons r rest =>
                rw [htl] at hv hr1
                obtain ⟨⟨r2, hr2, hre⟩, _⟩ := minRankOf_spec r rest
                rw [← htl] at hr2
                rw [← htl] at hr1
                exact Or.inl ⟨r1, List.mem_of_mem_filter hr1,
                  r2, List.mem_of_mem_filter hr2, hid, by rw [hre, ← hv]⟩
          · exact Or.inr h2
        · exact Or.inr h
      · exact Or.inr h
  · exact Or.inr h

theorem collapseOf_fold_cases {podium : ℕ} :
    ∀ (groups : List (List RankingRow)) (acc : List (String × ℕ))
      {aid : String} {v : ℕ},
      dictGet (groups.foldl (collapseStep podium) acc) aid = some v →
      (∃ g ∈ groups, ∃ r1 ∈ g, ∃ r2 ∈ g, r1.athlete_id = aid ∧ r2.rank = v) ∨
        dictGet acc aid = some v := by
  intro groups
  induction groups with
  | nil => intro acc aid v h; exact Or.inr h
  | cons g rest ih =>
      intro acc aid v h
      rcases ih _ h with ⟨g2, hg2, hrest⟩ | h1
      · exact Or.inl ⟨g2, List.mem_cons_of_mem g hg2, hrest⟩
      · rcases collapseStep_cases h1 with h2 | h2
        · exact Or.inl ⟨g, List.mem_cons_self g rest, h2⟩
        · exact Or.inr h2

theorem collapseOf_spec {podium : ℕ} {groups : List (List RankingRow)}
    (huni : ∀ g ∈ groups, ∀ a ∈ g, ∀ b ∈ g, rowPerfKey a = rowPerfKey b)
    {aid : String} {v : ℕ}
    (h : dictGet (collapseOf podium groups) aid = some v) :
    ∃ g ∈ groups, ∃ r1 ∈ g, ∃ r2 ∈ g, r1.athlete_id = aid ∧ r2.rank = v ∧
      rowPerfKey r1 = rowPerfKey r2 := by
  unfold collapseOf at h
  rcases collapseOf_fold_cases groups [] h with
    ⟨g, hg, r1, hr1, r2, hr2, hid, hv⟩ | h1
  · exact ⟨g, hg, r1, hr1, r2, hr2, hid, hv, huni g hg r1 hr1 r2 hr2⟩
  · simp [dictGet] at h1

theorem rows0_origin {results : List (String × LeadResult)} {base : List RItem}
    {pp : ℕ} {rn : String} {res : Option TieBreakResolver}
    (horig : ∀ it ∈ base, dictGet results it.athlete.id = some it.result)
    {r : RankingRow}
    (hr : r ∈ (buildRows pp
      (processGroups pp rn res (groupRuns itemKeyEq base) 0).1 1).1) :
    ∃ resl, dictGet results r.athlete_id = some resl ∧
      r.topped = resl.topped ∧ r.hold = resl.hold ∧ r.plus = resl.plus := by
  obtain ⟨c, hc, it, hit, rk, he⟩ := buildRows_mem _ _ hr
  obtain ⟨g, hg, hitems⟩ := processGroups_chunks_items _ _ hc
  obtain ⟨m, hm, hath, hres⟩ := hitems it hit
  have hmb : m ∈ base := mem_of_mem_groupRuns hg hm
  refine ⟨m.result, ?_, ?_, ?_, ?_⟩
  · rw [← he]
    show dictGet results it.athlete.id = some m.result
    rw [hath]
    exact horig m hmb
  · rw [← he]
    show it.result.topped = m.result.topped
    rw [hres]
  · rw [← he]
    show it.result.hold = m.result.hold
    rw [hres]
  · rw [← he]
    show it.result.plus = m.result.plus
    rw [hres]

theorem rowPerfKey_eq_of_fields {r : RankingRow} {res : LeadResult}
    (t : r.topped = res.topped) (h : r.hold = res.hold)
    (p : r.plus = res.plus) : rowPerfKey r = result_sort_key res := by
  unfold rowPerfKey result_sort_key
  rw [t, h, p]

theorem collapse_phase_mono {podium : ℕ} {rows1 : List RankingRow}
    (mono1 : ∀ x ∈ rows1, ∀ y ∈ rows1,
      keyLt (rowPerfKey y) (rowPerfKey x) → x.rank ≤ y.rank)
    (idkey : ∀ r ∈ rows1, ∀ r2 ∈ rows1,
      r.athlete_id = r2.athlete_id → rowPerfKey r = rowPerfKey r2)
    {x y : RankingRow}
    (hx : x ∈ (if collapseOf podium
        (groupRuns rowPerfEq (List.insertionSort byPerfRel rows1)) ≠ [] then
      List.insertionSort rowRel (rows1.map (fun r =>
        { r with rank := (dictGet (collapseOf podium
          (groupRuns rowPerfEq (List.insertionSort byPerfRel rows1)))
          r.athlete_id).getD r.rank }))
      else rows1))
    (hy : y ∈ (if collapseOf podium
        (groupRuns rowPerfEq (List.insertionSort byPerfRel rows1)) ≠ [] then
      List.insertionSort rowRel (rows1.map (fun r =>
        { r with rank := (dictGet (collapseOf podium
          (groupRuns rowPerfEq (List.insertionSort byPerfRel rows1)))
          r.athlete_id).getD r.rank }))
      else rows1))
    (hk : keyLt (rowPerfKey y) (rowPerfKey x)) : x.rank ≤ y.rank := by
  by_cases hcol : collapseOf podium
      (groupRuns rowPerfEq (List.insertionSort byPerfRel rows1)) ≠ []
  · rw [if_pos hcol] at hx hy
    have hsub : ∀ r0 ∈ rows1, ∃ rr ∈ rows1,
        rowPerfKey rr = rowPerfKey r0 ∧
        (dictGet (collapseOf podium (groupRuns rowPerfEq
          (List.insertionSort byPerfRel rows1))) r0.athlete_id).getD r0.rank
          = rr.rank := by
      intro r0 hr0
      cases hdg : dictGet (collapseOf podium (groupRuns rowPerfEq
          (List.insertionSort byPerfRel rows1))) r0.athlete_id with
      | none => exact ⟨r0, hr0, rfl, rfl⟩
      | some v =>
          have huni : ∀ g ∈ groupRuns rowPerfEq
              (List.insertionSort byPerfRel rows1),
              ∀ a ∈ g, ∀ b ∈ g, rowPerfKey a = rowPerfKey b :=
            fun g hg => groupRuns_rowKey_uniform hg
          obtain ⟨g, hg, r1, hr1, r2, hr2, hid, hrank, hkey⟩ :=
            collapseOf_spec huni hdg
          have m1 : r1 ∈ rows1 :=
            (List.perm_insertionSort byPerfRel rows1).mem_iff.mp
              (mem_of_mem_groupRuns hg hr1)
          have m2 : r2 ∈ rows1 :=
            (List.perm_insertionSort byPerfRel rows1).mem_iff.mp
              (mem_of_mem_groupRuns hg hr2)
          have k10 : rowPerfKey r1 = rowPerfKey r0 := idkey r1 m1 r0 hr0 hid
          exact ⟨r2, m2, hkey.symm.trans k10, hrank.symm⟩
    obtain ⟨x0, hx0, hex⟩ := List.mem_map.mp
      ((List.perm_insertionSort rowRel _).mem_iff.mp hx)
    obtain ⟨y0, hy0, hey⟩ := List.mem_map.mp
      ((List.perm_insertionSort rowRel _).mem_iff.mp hy)
    have keyx : rowPerfKey x = rowPerfKey x0 := by rw [← hex]; rfl
    have keyy : rowPerfKey y = rowPerfKey y0 := by rw [← hey]; rfl
    have rankx : x.rank = (dictGet (collapseOf podium (groupRuns rowPerfEq
        (List.insertionSort byPerfRel rows1))) x0.athlete_id).getD x0.rank := by
      rw [← hex]
    have ranky : y.rank = (dictGet (collapseOf podium (groupRuns rowPerfEq
        (List.insertionSort byPerfRel rows1))) y0.athlete_id).getD y0.rank := by
      rw [← hey]
    obtain ⟨rx, hrx, krx, erx⟩ := hsub x0 hx0
    obtain ⟨ry, hry, kry, ery⟩ := hsub y0 hy0
    rw [rankx, erx, ranky, ery]
    apply mono1 rx hrx ry hry
    rw [krx, kry, ← keyx, ← keyy]
    exact hk
  · rw [if_neg hcol] at hx hy
    exact mono1 x hx y hy hk

/-- Monotonicity of the whole post-sort pipeline in terms of the performance
keys carried by the output rows. -/
theorem computeFromSorted_mono
    {results : List (String × LeadResult)} {base : List RItem}
    {resolver : Option TieBreakResolver} {podium : ℕ} {rn : String}
    (hs : List.Sorted itemRel base)
    (horig : ∀ it ∈ base, dictGet results it.athlete.id = some it.result)
    {x y : RankingRow}
    (hx : x ∈ (computeFromSorted base resolver podium rn).rows)
    (hy : y ∈ (computeFromSorted base resolver podium rn).rows)
    (hk : keyLt (rowPerfKey y) (rowPerfKey x)) : x.rank ≤ y.rank := by
  have huni0 : ∀ g ∈ groupRuns itemKeyEq base, ∀ a ∈ g, ∀ b ∈ g,
      ikey a = ikey b := fun g hg => groupRuns_key_uniform hg
  have hpair0 : (groupRuns itemKeyEq base).Pairwise
      (fun g h => ∀ a ∈ g, ∀ b ∈ h, ¬ keyLt (ikey a) (ikey b)) := by
    have h1 : base.Pairwise (fun a b => ¬ keyLt (ikey a) (ikey b)) :=
      List.Pairwise.imp (fun h => itemRel_keyGE h) hs
    have h2 : ((groupRuns itemKeyEq base).flatten).Pairwise
        (fun a b => ¬ keyLt (ikey a) (ikey b)) := by
      rw [groupRuns_flatten]
      exact h1
    exact (List.pairwise_flatten.mp h2).2
  have hchunks := @processGroups_pairwise podium rn resolver
    (groupRuns itemKeyEq base) 0 huni0 hpair0
  have mono0 := @buildRows_mono podium
    (processGroups podium rn resolver (groupRuns itemKeyEq base) 0).1 1 hchunks
  have mono1 : ∀ a ∈ List.insertionSort rowRel (buildRows podium
      (processGroups podium rn resolver (groupRuns itemKeyEq base) 0).1 1).1,
      ∀ b ∈ List.insertionSort rowRel (buildRows podium
      (processGroups podium rn resolver (groupRuns itemKeyEq base) 0).1 1).1,
      keyLt (rowPerfKey b) (rowPerfKey a) → a.rank ≤ b.rank := by
    intro a ha b hb
    exact mono0 a ((List.perm_insertionSort rowRel _).mem_iff.mp ha)
      b ((List.perm_insertionSort rowRel _).mem_iff.mp hb)
  have idkey : ∀ r ∈ List.insertionSort rowRel (buildRows podium
      (processGroups podium rn resolver (groupRuns itemKeyEq base) 0).1 1).1,
      ∀ r2 ∈ List.insertionSort rowRel (buildRows podium
      (processGroups podium rn resolver (groupRuns itemKeyEq base) 0).1 1).1,
      r.athlete_id = r2.athlete_id → rowPerfKey r = rowPerfKey r2 := by
    intro r hr r2 hr2 hid
    obtain ⟨res1, e1, t1, h1, p1⟩ := rows0_origin horig
      ((List.perm_insertionSort rowRel _).mem_iff.mp hr)
    obtain ⟨res2, e2, t2, h2, p2⟩ := rows0_origin horig
      ((List.perm_insertionSort rowRel _).mem_iff.mp hr2)
    rw [hid] at e1
    have hres : res1 = res2 := Option.some.inj (e1.symm.trans e2)
    unfold rowPerfKey
    rw [t1, h1, p1, t2, h2, p2, hres]
  unfold computeFromSorted at hx hy
  simp only [] at hx hy
  exact collapse_phase_mono mono1 idkey hx hy hk

/-- Provenance of an output row: its performance fields are exactly the
`results` entry for its athlete id. -/
theorem computeFromSorted_rows_origin
    {results : List (String × LeadResult)} {base : List RItem}
    {resolver : Option TieBreakResolver} {podium : ℕ} {rn : String}
    (horig : ∀ it ∈ base, dictGet results it.athlete.id = some it.result)
    {r : RankingRow}
    (hr : r ∈ (computeFromSorted base resolver podium rn).rows) :
    ∃ resl, dictGet results r.athlete_id = some resl ∧
      r.topped = resl.topped ∧ r.hold = resl.hold ∧ r.plus = resl.plus := by
  unfold computeFromSorted at hr
  simp only [] at hr
  split at hr
  · obtain ⟨r0, hr0, he⟩ := List.mem_map.mp
      ((List.perm_insertionSort rowRel _).mem_iff.mp hr)
    obtain ⟨resl, e1, t1, h1, p1⟩ := rows0_origin horig
      ((List.perm_insertionSort rowRel _).mem_iff.mp hr0)
    refine ⟨resl, ?_, ?_, ?_, ?_⟩
    · rw [← he]
      exact e1
    · rw [← he]
      exact t1
    · rw [← he]
      exact h1
    · rw [← he]
      exact p1
  · exact rows0_origin horig ((List.perm_insertionSort rowRel _).mem_iff.mp hr)

/-- C5: for every athlete list, results mapping, resolver, podium size and
round name, if one athlete's performance strictly dominates another's under
the descending `(topped, hold, plus-when-not-topped)` order — i.e. the
`_result_sort_key` triple of the second is lexicographically below the
first's — then the dominating athlete's output row never ranks below the
dominated one's. -/
theorem C5_comparator_monotonicity
    (athletes : List Athlete) (results : List (String × LeadResult))
    (resolver : Option TieBreakResolver) (podium_places : ℤ)
    (round_name : String) (x y : RankingRow) (rx ry : LeadResult)
    (hx : x ∈ (compute_lead_ranking athletes results resolver podium_places
      round_name).rows)
    (hy : y ∈ (compute_lead_ranking athletes results resolver podium_places
      round_name).rows)
    (hrx : dictGet results x.athlete_id = some rx)
    (hry : dictGet results y.athlete_id = some ry)
    (hdom : keyLt (result_sort_key ry) (result_sort_key rx)) :
    x.rank ≤ y.rank := by
  have horig : ∀ it ∈ List.insertionSort itemRel (resolvedItems athletes results),
      dictGet results it.athlete.id = some it.result := by
    intro it hit
    have hit2 : it ∈ resolvedItems athletes results :=
      (List.perm_insertionSort itemRel _).mem_iff.mp hit
    unfold resolvedItems at hit2
    obtain ⟨a, ha, he⟩ := List.mem_filterMap.mp hit2
    cases hd : dictGet results a.id with
    | none =>
        rw [hd] at he
        exact absurd he (by simp)
    | some r0 =>
        rw [hd] at he
        have he2 : ({ athlete := a, result := r0 } : RItem) = it :=
          Option.some.inj he
        rw [← he2]
        exact hd
  unfold compute_lead_ranking at hx hy
  simp only [] at hx hy
  obtain ⟨resx, ex, tx, hx2, px⟩ := computeFromSorted_rows_origin horig hx
  obtain ⟨resy, ey, ty, hy2, py⟩ := computeFromSorted_rows_origin horig hy
  have hxk : rowPerfKey x = result_sort_key rx := by
    have hre : resx = rx := Option.some.inj (ex.symm.trans hrx)
    rw [← hre]
    exact rowPerfKey_eq_of_fields tx hx2 px
  have hyk : rowPerfKey y = result_sort_key ry := by
    have hre : resy = ry := Option.some.inj (ey.symm.trans hry)
    rw [← hre]
    exact rowPerfKey_eq_of_fields ty hy2 py
  exact computeFromSorted_mono (List.sorted_insertionSort itemRel _) horig hx hy
    (by rw [hxk, hyk]; exact hdom)

theorem itemRel_both_eq {p q : RItem} (h1 : itemRel p q) (h2 : itemRel q p) :
    itemCmp p q = .eq := by
  rcases hc : itemCmp p q with _ | _ | _
  · exfalso
    apply h2
    have hsymm := @Batteries.OrientedCmp.symm RItem itemCmp _ p q
    rw [hc] at hsymm
    rw [← hsymm]
    rfl
  · rfl
  · exact absurd hc h1

theorem itemCmp_eq_ids {p q : RItem} (h : itemCmp p q = .eq) :
    p.athlete.id = q.athlete.id := by
  unfold itemCmp compareLex compareOn at h
  obtain ⟨_, h⟩ := ordering_then_eq h
  obtain ⟨_, h⟩ := ordering_then_eq h
  obtain ⟨_, h⟩ := ordering_then_eq h
  obtain ⟨_, h⟩ := ordering_then_eq h
  exact str_compare_eq h

/-- Two sorted lists that are permutations of each other coincide, given
antisymmetry of the order on the elements involved. -/
theorem sorted_perm_eq {α : Type} {r : α → α → Prop} :
    ∀ {l1 l2 : List α}, List.Perm l1 l2 → List.Sorted r l1 → List.Sorted r l2 →
      (∀ a ∈ l1, ∀ b ∈ l1, r a b → r b a → a = b) → l1 = l2 := by
  intro l1
  induction l1 with
  | nil =>
      intro l2 hp _ _ _
      exact (List.Perm.eq_nil hp.symm).symm
  | cons a t ih =>
      intro l2 hp hs1 hs2 hanti
      cases l2 with
      | nil => exact List.noConfusion (List.Perm.eq_nil hp)
      | cons b t2 =>
          have hab : a = b := by
            have hamem : a ∈ b :: t2 := hp.mem_iff.mp (List.mem_cons_self a t)
            have hbmem : b ∈ a :: t := hp.mem_iff.mpr (List.mem_cons_self b t2)
            rcases List.mem_cons.mp hamem with h | hat2
            · exact h
            · rcases List.mem_cons.mp hbmem with h2 | hbt
              · exact h2.symm
              · have rab : r a b := (List.sorted_cons.mp hs1).1 b hbt
                have rba : r b a := (List.sorted_cons.mp hs2).1 a hat2
                exact hanti a (List.mem_cons_self a t) b
                  (List.mem_cons_of_mem a hbt) rab rba
          subst hab
          have hpt : List.Perm t t2 := List.Perm.cons_inv hp
          rw [ih hpt (List.sorted_cons.mp hs1).2 (List.sorted_cons.mp hs2).2
            (fun x hx y hy => hanti x (List.mem_cons_of_mem a hx)
              y (List.mem_cons_of_mem a hy))]

theorem resolvedItems_cons (a : Athlete) (t : List Athlete)
    (results : List (String × LeadResult)) :
    resolvedItems (a :: t) results =
      match dictGet results a.id with
      | none => resolvedItems t results
      | some r => { athlete := a, result := r } :: resolvedItems t results := by
  unfold resolvedItems
  rw [List.filterMap_cons]
  cases dictGet results a.id
  · rfl
  · rfl

theorem resolvedItems_ids_sublist (athletes : List Athlete)
    (results : List (String × LeadResult)) :
    List.Sublist
      ((resolvedItems athletes results).map (fun it => it.athlete.id))
      (athletes.map (fun a => a.id)) := by
  induction athletes with
  | nil => simp [resolvedItems]
  | cons a t ih =>
      rw [resolvedItems_cons]
      cases hd : dictGet results a.id with
      | none =>
          rw [List.map_cons]
          exact List.Sublist.cons a.id ih
      | some r0 =>
          rw [List.map_cons, List.map_cons]
          exact List.Sublist.cons₂ a.id ih

/-- C6 (counterexample): with a duplicated athlete id carried by two athletes
whose names differ only in case, permuting the roster changes the produced
tie fingerprint — the fingerprint member list is sorted by
`(name.lower(), id)`, which cannot separate the duplicates, so the stable
sort preserves their input order and the canonical payload differs. -/
theorem C6_counterexample :
    List.Perm wC6b wC6a ∧
    (compute_lead_ranking wC6b wC6res none 3 "Final").tie_events.map
        (fun e => e.fingerprint) ≠
      (compute_lead_ranking wC6a wC6res none 3 "Final").tie_events.map
        (fun e => e.fingerprint) :=
  ⟨by decide, by decide⟩

/-- C6 (amended): permuting the athlete list never changes any tie
fingerprint, provided the roster's athlete ids are pairwise distinct (as
they are in every realistic roster; with duplicated ids the base sort can
order the duplicates differently and the fingerprints drift, see the
counterexample). -/
theorem C6_fingerprint_stability
    (athletes1 athletes2 : List Athlete) (results : List (String × LeadResult))
    (resolver : Option TieBreakResolver) (podium_places : ℤ)
    (round_name : String)
    (hperm : List.Perm athletes1 athletes2)
    (hnodup : (athletes1.map (fun a => a.id)).Nodup) :
    (compute_lead_ranking athletes2 results resolver podium_places
        round_name).tie_events.map (fun e => e.fingerprint) =
      (compute_lead_ranking athletes1 results resolver podium_places
        round_name).tie_events.map (fun e => e.fingerprint) := by
  have hbase : List.insertionSort itemRel (resolvedItems athletes2 results)
      = List.insertionSort itemRel (resolvedItems athletes1 results) := by
    have hn2 : (athletes2.map (fun a => a.id)).Nodup :=
      (hperm.map (fun a => a.id)).nodup_iff.mp hnodup
    have hnodup2 : ((resolvedItems athletes2 results).map
        (fun it => it.athlete.id)).Nodup :=
      List.Nodup.sublist (resolvedItems_ids_sublist athletes2 results) hn2
    apply sorted_perm_eq
    · exact ((List.perm_insertionSort itemRel _).trans
        ((hperm.symm).filterMap _)).trans
        (List.perm_insertionSort itemRel _).symm
    · exact List.sorted_insertionSort itemRel _
    · exact List.sorted_insertionSort itemRel _
    · intro p hp q hq h1 h2
      have hid := itemCmp_eq_ids (itemRel_both_eq h1 h2)
      have hp2 : p ∈ resolvedItems athletes2 results :=
        (List.perm_insertionSort itemRel _).mem_iff.mp hp
      have hq2 : q ∈ resolvedItems athletes2 results :=
        (List.perm_insertionSort itemRel _).mem_iff.mp hq
      exact List.inj_on_of_nodup_map hnodup2 hp2 hq2 hid
  unfold compute_lead_ranking
  simp only []
  rw [hbase]

/-! ### Witnesses -/

theorem C1_witness :
    wSubOut.state.competitors = markFirst wState1.competitors (some "A") ∧
    wSubOut.state.currentClimber =
      compute_preparing_climber (markFirst wState1.competitors (some "A"))
        wState1.currentClimber ∧
    wSubOut.state.preparingClimber =
      compute_preparing_climber wSubOut.state.competitors
        wSubOut.state.currentClimber := by
  obtain ⟨rn, fi, hres, hcomp, hmark, hadv, hkeep, hnone, hprep⟩ :=
    C1_submit_score_queue wState1 wSubCmd "u2" wSubOut rfl (by decide) (by decide)
  have hr0 : resolveSubmitName wSubCmd wState1.competitors =
      .ok (some "A", false) := by decide
  have hpair := Except.ok.inj (hr0.symm.trans hres)
  have h1 : some "A" = rn := congrArg Prod.fst hpair
  subst h1
  exact ⟨hcomp, hadv "A" rfl (by decide), hprep⟩

theorem C2_witness :
    pyOrInt wInitCmd.routeIndex 1 = 1 ∧
    wInitOut.state.boxVersion = (default_state "sid-flow").boxVersion + 1 ∧
    wInitOut.state.scores = [] ∧
    wInitOut.state.timeTiebreakDecisions = [] := by
  obtain ⟨hbox, hclear, _⟩ :=
    C2_init_route_epoch_and_clearing (default_state "sid-flow") wInitCmd "u1"
      wInitOut rfl (by decide)
  obtain ⟨hsc, _, htd, _⟩ := hclear (by decide)
  exact ⟨by decide, hbox, hsc, htd⟩

theorem C3_witness :
    validate_session_and_version { default_state "sid-4" with boxVersion := 2 }
      { type := "START_TIMER", boxId := some 1, sessionId := some "sid-4",
        boxVersion := some 3 } true = none := by
  have h := C3_session_gate { default_state "sid-4" with boxVersion := 2 }
    { type := "START_TIMER", boxId := some 1, sessionId := some "sid-4",
      boxVersion := some 3 } true
  refine (h.2.2 (fun _ => rfl) ?_).2 ?_
  · intro inc hinc h1 h2
    exact (Option.some.inj hinc).symm
  · intro v hv
    have h3 := Option.some.inj hv
    rw [← h3]
    decide

theorem C7_witness :
    wRegOut.state.lastRegisteredTime = some 15 ∧
    (default_state "sid-rt").lastRegisteredTime = none := by
  refine ⟨?_, rfl⟩
  exact (C7_register_time (default_state "sid-rt")
      { type := "REGISTER_TIME", boxId := some 1,
        registeredTime := some (.vFloat 15) } "u" wRegOut rfl (by decide)).1
    (.vFloat 15) 15 rfl rfl

theorem C8_witness :
    wSyncOut.state.remaining = some 42 ∧ wSyncOut.snapshot_required = false := by
  have h := (C8_timer_sync (default_state "sid")
    { type := "TIMER_SYNC", boxId := some 1, remaining := some 42 } "u"
    wSyncOut (by decide)).1 rfl
  refine ⟨?_, h.2⟩
  rw [h.1]

theorem C9_witness :
    0 < wState1.holdsCount ∧
    0 ≤ wState1.holdCount ∧ wState1.holdCount ≤ (wState1.holdsCount : ℚ) := by
  have hreach : ReachableV wState1 :=
    ReachableV.step (ReachableV.init "sid-flow")
      (show validate_cmd wInitCmd = some wInitCmd by decide)
      (show apply_transition (default_state "sid-flow") wInitCmd "u1" = .ok wInitOut
        by decide)
  exact ⟨by decide, C9_hold_count_invariant.1 wState1 hreach (by decide)⟩

theorem C10_witness :
    wProgOut.state.holdCount ≠ wState1.holdCount ∧
    wProgOut.state.holdCount = 1 := by
  obtain ⟨h1, h2, h3, h4⟩ :=
    C10_progress_delta_zero wState1 wProgCmd "u3" rfl rfl
  exact ⟨(h3 wProgOut (by decide)).2 (by decide), by decide⟩

theorem C5_witness :
    wC5x ∈ wC5out.rows ∧ wC5y ∈ wC5out.rows ∧
    dictGet wC5res wC5x.athlete_id = some { topped := true, hold := 40 } ∧
    dictGet wC5res wC5y.athlete_id = some { topped := false, hold := 30 } ∧
    keyLt (result_sort_key { topped := false, hold := 30 })
      (result_sort_key { topped := true, hold := 40 }) ∧
    wC5x.rank ≤ wC5y.rank :=
  ⟨by decide, by decide, by decide, by decide, by decide,
    C5_comparator_monotonicity [⟨"A", "Ana"⟩, ⟨"B", "Bob"⟩] wC5res none 3
      "Final" wC5x wC5y { topped := true, hold := 40 }
      { topped := false, hold := 30 }
      (by decide) (by decide) (by decide) (by decide) (by decide)⟩

theorem C6_witness :
    List.Perm wC6s1 wC6s2 ∧ (wC6s1.map (fun a => a.id)).Nodup ∧
    (compute_lead_ranking wC6s2 wC6res2 none 3 "Final").tie_events.map
        (fun e => e.fingerprint) =
      (compute_lead_ranking wC6s1 wC6res2 none 3 "Final").tie_events.map
        (fun e => e.fingerprint) :=
  ⟨by decide, by decide,
    C6_fingerprint_stability wC6s1 wC6s2 wC6res2 none 3 "Final"
      (by decide) (by decide)⟩

end Escalada
